import Mathlib

/-!
Verification development for the motion-lake-server write/flush/query engine.

The Python source is shallowly embedded: timestamps are integers (seconds),
byte strings are `List Nat`, SQLAlchemy tables are Lean lists of records,
and stateful methods are explicit state-passing functions.  Python truthiness
of `int`/`None` arguments (`if limit:` treats both `None` and `0` as false)
is modelled by `pyTruthy`, and SQLAlchemy `.limit(x)` (where only `None`
means "no limit") by `sqlLimit`.
-/

/-- Errors surfaced by the embedded code.  `anotherWorld` is the project's
`AnotherWorldException` (the spec's `DomainError`); `valueError` the
`ValueError` raised by blob-identifier validation; the remaining
constructors stand for Python exceptions that escape the code under test. -/
inductive Err where
  | anotherWorld (msg : String)
  | valueError
  | keyError
  | multipleResults
  | ioError
  | attributeError
  | fuelExhausted
deriving Repr, DecidableEq

/-- Python truthiness of an optional integer argument: `None` and `0` are
falsy, every other integer is truthy.  Used for `if limit:` / `if offset:`. -/
def pyTruthy : Option Nat → Bool
  | none => false
  | some n => decide (n ≠ 0)

/-- SQLAlchemy `.limit(x)`: `None` means no limit, any integer (including 0)
is applied as a `LIMIT` clause. -/
def sqlLimit {α : Type} (limit : Option Nat) (l : List α) : List α :=
  match limit with
  | none => l
  | some n => l.take n

/-- Insert `a` after every element `b` with `le b a`, keeping ties in their
original relative order (the stable insertion position). -/
def pyInsert {α : Type} (le : α → α → Bool) (a : α) : List α → List α
  | [] => [a]
  | b :: l => if le b a then b :: pyInsert le a l else a :: b :: l

/-- Stable sort by insertion.  Python's `list.sort` (and the polars /
pyarrow sorts) are stable, and a stable sort by a key is uniquely
determined, so insertion sort is an exact model; it is structurally
recursive, hence computable by kernel reduction. -/
def pyStableSort {α : Type} (le : α → α → Bool) (l : List α) : List α :=
  l.foldl (fun acc a => pyInsert le a acc) []

/-- Stable ascending sort by an integer key, modelling Python `list.sort`
with `key=...` and polars/pyarrow `sort`. -/
def pySortAsc {α : Type} (key : α → Int) (l : List α) : List α :=
  pyStableSort (fun a b => decide (key a ≤ key b)) l

/-- Stable descending sort by an integer key, modelling Python `list.sort`
with `key=..., reverse=True` (the comparison is reversed, ties keep their
original order). -/
def pySortDesc {α : Type} (key : α → Int) (l : List α) : List α :=
  pyStableSort (fun a b => decide (key b ≤ key a)) l

/-- Wire content types, `src/core/models.py`: JSON=0, RAW=1, GTFS_RT=2,
CSV=3, GTFS=4. -/
inductive ContentType where
  | json
  | raw
  | gtfs_rt
  | csv
  | gtfs
deriving Repr, DecidableEq

def ContentType.value : ContentType → Nat
  | .json => 0
  | .raw => 1
  | .gtfs_rt => 2
  | .csv => 3
  | .gtfs => 4

/-- `ContentType(n)` in Python: succeeds only on a known wire integer. -/
def ContentType.ofValue (n : Nat) : Option ContentType :=
  if n = 0 then some .json
  else if n = 1 then some .raw
  else if n = 2 then some .gtfs_rt
  else if n = 3 then some .csv
  else if n = 4 then some .gtfs
  else none

/-!
## Orchestrator range guard (`src/core/orchestrator.py`, advanced_query)

Python computes `(max_timestamp - min_timestamp).days > 7`.  A
`datetime.timedelta`'s `.days` field is the floor of the total duration in
whole days, so the guard fires exactly when the difference reaches 8 days.
The delegated engine call is abstracted as an `Except` value, since the
claim concerns only the guard.
-/

/-- `timedelta.days`: floor division of the total seconds by 86400. -/
def timedeltaDays (deltaSeconds : Int) : Int := Int.fdiv deltaSeconds 86400

def advancedQueryRangeError : Err :=
  .anotherWorld "Max difference between timestamps is 7 day"

/-- `Orchestrator.advanced_query`: raise when `(max - min).days > 7`,
otherwise delegate to the engine (abstracted as `engineCall`). -/
def Orchestrator.advanced_query {α : Type} (engineCall : Except Err α)
    (min_timestamp max_timestamp : Int) : Except Err α :=
  if timedeltaDays (max_timestamp - min_timestamp) > 7 then
    .error advancedQueryRangeError
  else
    engineCall

/-!
## Blob-identifier validation (`io_manager/file_system.py` line 58 and
`io_manager/azure_blob.py` line 40)

Both backends run `if not re.search(r"[a-zA-Z0-9_-]", identifier)`:
`re.search` with a character class is truthy as soon as *one* character of
the identifier belongs to the class, so the guard rejects only identifiers
containing *no* such character.
-/

def isIdentChar (c : Char) : Bool :=
  ('a' ≤ c && c ≤ 'z') || ('A' ≤ c && c ≤ 'Z') || ('0' ≤ c && c ≤ '9')
    || c = '_' || c = '-'

/-- `re.search(r"[a-zA-Z0-9_-]", s)` viewed as a Boolean: true iff some
character of `s` is in the class. -/
def reSearchIdentClass (s : String) : Bool := s.toList.any isIdentChar

/-- `FileSystemIOManager.get_fragment_context`, identifier validation only. -/
def FileSystemIOManager.identifier_check (identifier : String) : Except Err Unit :=
  if ¬ reSearchIdentClass identifier then .error .valueError else .ok ()

/-- `AzureBlobIOManager.get_fragment_context`, identifier validation only
(the body is identical to the filesystem backend's check). -/
def AzureBlobIOManager.identifier_check (identifier : String) : Except Err Unit :=
  if ¬ reSearchIdentClass identifier then .error .valueError else .ok ()

/-!
## Catalog data model (`src/core/persistence/tables.py`)

Rows are records; tables are lists of records in insertion order.
`content_type` and `hash` are `Option`s on `ItemRec` because the live
`flush_skipped_buffers` / `flush_buffer` code omits them when constructing
`Item` objects (the ORM then carries `None`).
-/

structure CollectionRec where
  id : Nat
  name : String
deriving Repr, DecidableEq

structure FragmentRec where
  uuid : String
  content_type : Option Nat
  collection_id : Nat
deriving Repr, DecidableEq

structure BufferedFragmentRec where
  timestamp : Int
  collection_id : Nat
  content_type : Nat
  size : Nat
  original_size : Nat
  uuid : String
  locked : Bool
  hash : Option String
deriving Repr, DecidableEq

structure ItemRec where
  fragment_id : String
  collection_id : Nat
  timestamp : Int
  size : Nat
  original_size : Nat
  content_type : Option Nat
  hash : Option String
deriving Repr, DecidableEq

structure Catalog where
  collections : List CollectionRec
  fragments : List FragmentRec
  buffers : List BufferedFragmentRec
  items : List ItemRec
  next_collection_id : Nat
deriving Repr, DecidableEq

/-!
## PersistenceManager (`src/core/persistence/persistence.py`)
-/

/-- `PersistenceManager.get_collection_by_name`: SQLAlchemy `.one()` raises
`NoResultFound` (translated to `AnotherWorldException`) on zero rows and
`MultipleResultsFound` (not translated) on more than one. -/
def PersistenceManager.get_collection_by_name (cat : Catalog)
    (collection_name : String) : Except Err CollectionRec :=
  match cat.collections.filter (fun c => c.name = collection_name) with
  | [c] => .ok c
  | [] => .error (.anotherWorld ("Collection " ++ collection_name ++ " does not exist"))
  | _ => .error .multipleResults

/-- `PersistenceManager.create_collection`: the unique-name constraint
triggers `IntegrityError`; with `allow_existing` the handler falls through
and Python returns `None` (modelled as `none`). -/
def PersistenceManager.create_collection (cat : Catalog) (collection_name : String)
    (allow_existing : Bool) : Except Err (Option CollectionRec × Catalog) :=
  if cat.collections.any (fun c => c.name = collection_name) then
    if allow_existing then .ok (none, cat)
    else .error (.anotherWorld ("Collection " ++ collection_name ++ " already exists"))
  else
    let c : CollectionRec := { id := cat.next_collection_id, name := collection_name }
    .ok (some c, { cat with
      collections := cat.collections ++ [c],
      next_collection_id := cat.next_collection_id + 1 })

/-- `PersistenceManager.query`: select Items of the collection in the
timestamp range, order by timestamp per `ascending`, apply SQL `LIMIT`
(where only `None` means unlimited), then return the Fragments whose uuid
appears among the selected items' fragment ids, optionally filtered by
content type (`if content_types and isinstance(content_types, list)`; a SQL
`IN` never matches a NULL content type). -/
def PersistenceManager.query (cat : Catalog) (collection : CollectionRec)
    (min_timestamp max_timestamp : Int) (ascending : Bool) (limit : Option Nat)
    (content_types : Option (List Nat)) : List FragmentRec :=
  let itemsInRange := cat.items.filter (fun i =>
    i.collection_id = collection.id ∧
    min_timestamp ≤ i.timestamp ∧ i.timestamp ≤ max_timestamp)
  let ordered := if ascending then pySortAsc (fun i => i.timestamp) itemsInRange
    else pySortDesc (fun i => i.timestamp) itemsInRange
  let results := sqlLimit limit ordered
  let fragIds := results.map (fun i => i.fragment_id)
  let frags := cat.fragments.filter (fun f => fragIds.contains f.uuid)
  match content_types with
  | none => frags
  | some cts =>
      if cts.isEmpty then frags
      else frags.filter (fun f => match f.content_type with
        | some v => cts.contains v
        | none => false)

/-- Modelled from the spec: `Engine.query` calls
`query_buffers_do_not_lock`, a method absent from the src persistence
manager; src's `query_buffers_no_lock` implements the spec contract
("range-filtered scan of BufferedFragments, including locked ones") and is
the basis of this model.  The timestamp filters are always applied because
`datetime` objects are always truthy; `if limit:` treats 0 as no limit. -/
def PersistenceManager.query_buffers_do_not_lock (cat : Catalog)
    (collection : CollectionRec) (min_timestamp max_timestamp : Int)
    (ascending : Bool) (limit : Option Nat) : List BufferedFragmentRec :=
  let bufs := cat.buffers.filter (fun b =>
    b.collection_id = collection.id ∧
    min_timestamp ≤ b.timestamp ∧ b.timestamp ≤ max_timestamp)
  let ordered := if ascending then pySortAsc (fun b => b.timestamp) bufs
    else pySortDesc (fun b => b.timestamp) bufs
  if pyTruthy limit then ordered.take (limit.getD 0) else ordered

/-- `PersistenceManager.get_items_from_fragments`: all Items whose
`fragment_id` is among the given fragments' uuids (no collection filter). -/
def PersistenceManager.get_items_from_fragments (cat : Catalog)
    (fragments : List FragmentRec) : List ItemRec :=
  cat.items.filter (fun i => (fragments.map (fun f => f.uuid)).contains i.fragment_id)

/-- `PersistenceManager.flush_skipped_buffers`: each skipped buffer becomes
a stand-alone Fragment reusing the buffer's uuid and content type, plus one
Item; the Item is constructed *without* `content_type` and `hash` (the
source omits those keyword arguments), so they are `none`.  The buffers are
then deleted.  Buffers are matched by uuid only. -/
def PersistenceManager.flush_skipped_buffers (cat : Catalog)
    (collection : CollectionRec) (skipped : List String) : Catalog :=
  let skipped_fragments := cat.buffers.filter (fun b => skipped.contains b.uuid)
  let newFrags := skipped_fragments.map (fun b =>
    { uuid := b.uuid, content_type := some b.content_type,
      collection_id := collection.id : FragmentRec })
  let newItems := skipped_fragments.map (fun b =>
    { fragment_id := b.uuid, collection_id := collection.id,
      timestamp := b.timestamp, size := b.size,
      original_size := b.original_size,
      content_type := none, hash := none : ItemRec })
  { cat with
    fragments := cat.fragments ++ newFrags,
    items := cat.items ++ newItems,
    buffers := cat.buffers.filter (fun b => ¬ skipped.contains b.uuid) }

/-- `PersistenceManager.flush_buffer`: create one Fragment with the new
uuid and the group's content type, one Item per promoted buffer (copying
timestamp, sizes and content type; the source omits `hash`), then delete
the promoted buffers.  Buffers are matched by uuid only. -/
def PersistenceManager.flush_buffer (cat : Catalog) (collection : CollectionRec)
    (new_fragment_uuid : String) (content_type : Nat)
    (buffer_uuids : List String) : Catalog :=
  let buffered_fragments := cat.buffers.filter (fun b => buffer_uuids.contains b.uuid)
  let fragment : FragmentRec :=
    { uuid := new_fragment_uuid, content_type := some content_type,
      collection_id := collection.id }
  let newItems := buffered_fragments.map (fun b =>
    { fragment_id := fragment.uuid, collection_id := collection.id,
      timestamp := b.timestamp, size := b.size,
      original_size := b.original_size,
      content_type := some b.content_type, hash := none : ItemRec })
  { cat with
    fragments := cat.fragments ++ [fragment],
    items := cat.items ++ newItems,
    buffers := cat.buffers.filter (fun b => ¬ buffer_uuids.contains b.uuid) }

/-- `PersistenceManager.get_and_lock_buffers`: select the collection's
unlocked buffers, mark them locked, return the selection. -/
def PersistenceManager.get_and_lock_buffers (cat : Catalog)
    (collection : CollectionRec) : List BufferedFragmentRec × Catalog :=
  let selected := cat.buffers.filter (fun b =>
    b.collection_id = collection.id ∧ b.locked = false)
  (selected,
   { cat with buffers := cat.buffers.map (fun b =>
      if b.collection_id = collection.id ∧ b.locked = false then
        { b with locked := true }
      else b) })

/-- `PersistenceManager.get_unlocked_buffers_size`: sum of `original_size`
over the collection's unlocked buffers (`or 0` makes the empty sum 0). -/
def PersistenceManager.get_unlocked_buffers_size (cat : Catalog)
    (collection_name : String) : Except Err Nat :=
  match PersistenceManager.get_collection_by_name cat collection_name with
  | .error e => .error e
  | .ok collection =>
      .ok (((cat.buffers.filter (fun b =>
        b.collection_id = collection.id ∧ b.locked = false)).map
          (fun b => b.original_size)).sum)

/-- `PersistenceManager.delete_collection`: resolve the collection, then
delete its Items, Fragments, BufferedFragments and finally the Collection
row, all keyed by the collection id. -/
def PersistenceManager.delete_collection (cat : Catalog)
    (collection_name : String) : Except Err Catalog :=
  match PersistenceManager.get_collection_by_name cat collection_name with
  | .error e => .error e
  | .ok collection => .ok { cat with
      items := cat.items.filter (fun i => ¬ i.collection_id = collection.id),
      fragments := cat.fragments.filter (fun f => ¬ f.collection_id = collection.id),
      buffers := cat.buffers.filter (fun b => ¬ b.collection_id = collection.id),
      collections := cat.collections.filter (fun c => ¬ c.id = collection.id) }

/-- Modelled from the spec: `Engine.store` warms its dedup cache from
`persistence_manager.get_last_hash(collection_name)`, a method absent from
the src persistence manager.  Per the spec's dedup cache (collection →
hash of the last accepted payload), it yields the hash column of the most
recently inserted buffered fragment of the collection, if any. -/
def PersistenceManager.get_last_hash (cat : Catalog)
    (collection_name : String) : Option String :=
  match cat.collections.find? (fun c => c.name = collection_name) with
  | none => none
  | some collection =>
      match (cat.buffers.filter (fun b => b.collection_id = collection.id)).getLast? with
      | some b => b.hash
      | none => none

/-- Modelled from the spec: `log_buffer(collection_id, ts, uuid, size,
original_size, content_type, hash)` inserts one BufferedFragment row with
`locked = false`.  The src `log_buffer` takes no hash argument although
`Engine.store` passes one; the spec's signature (with hash) is modelled. -/
def PersistenceManager.log_buffer (cat : Catalog) (collection_id : Nat)
    (timestamp : Int) (buffer_id : String) (size original_size : Nat)
    (content_type : Nat) (hash : String) : Catalog :=
  { cat with buffers := cat.buffers ++ [{
      timestamp := timestamp, collection_id := collection_id,
      content_type := content_type, size := size,
      original_size := original_size, uuid := buffer_id,
      locked := false, hash := some hash }] }

/-!
## Blob store

Parquet blobs are modelled by their decoded content: `table rows` when
`pq.read_table` / `polars.read_parquet` would succeed, `corrupt` when the
read raises.  A row is the pair of the serialized `data` column value and
the integer `timestamp`.
-/

structure Row where
  data : List Nat
  ts : Int
deriving Repr, DecidableEq

inductive Blob where
  | table (rows : List Row)
  | corrupt
deriving Repr, DecidableEq

/-- The blob store: keys are `(collection, fragment-id)` pairs. -/
abbrev BlobStore := List ((String × String) × Blob)

/-- Opening a key for writing truncates: the key is rebound. -/
def BlobStore.write (bs : BlobStore) (collection_name fragment_uuid : String)
    (b : Blob) : BlobStore :=
  bs.filter (fun kv => ¬ kv.1 = (collection_name, fragment_uuid))
    ++ [((collection_name, fragment_uuid), b)]

def BlobStore.read (bs : BlobStore) (collection_name fragment_uuid : String) :
    Option Blob :=
  (bs.find? (fun kv => kv.1 = (collection_name, fragment_uuid))).map (fun kv => kv.2)

/-- `IOManager.remove_fragments` (implemented by the Azure backend;
declared in `io_manager/base.py`): bulk delete of the given uuids. -/
def IOManager.remove_fragments (bs : BlobStore) (collection_name : String)
    (fragment_uuids : List String) : BlobStore :=
  bs.filter (fun kv =>
    ¬ (kv.1.1 = collection_name ∧ fragment_uuids.contains kv.1.2))

/-- Modelled from the spec: `delete_collection(name)` of the blob store
"removes all blobs in the namespace".  `io_manager/base.py` declares
`remove_collection` as a Protocol stub only; the Azure backend implements
it by deleting every blob under the collection prefix, and no filesystem
implementation is present under src. -/
def IOManager.remove_collection (bs : BlobStore) (collection_name : String) :
    BlobStore :=
  bs.filter (fun kv => ¬ kv.1.1 = collection_name)

/-!
## Columnar bridge (`src/core/bridge/parquet_bridge.py`)

Parsed payload values: the RAW parser returns the input bytes unchanged;
the JSON / GTFS-RT parsers return objects, modelled as flat string maps
(enough to express Python emptiness and schema inference).
-/

inductive PyRep where
  | bytes (b : List Nat)
  | jobj (fields : List (String × String))
deriving Repr, DecidableEq

/-- Python truthiness of a parse result: empty bytes / empty mapping are
falsy (`if not result`). -/
def pyFalsyRep : PyRep → Bool
  | .bytes b => b.isEmpty
  | .jobj f => f.isEmpty

/-- External collaborators of the embedded code (hash function, the JSON
and GTFS-RT parsers, pyarrow schema inference and table construction,
parquet encoding size, the `BUFFER_SIZE` environment setting, and the
pyarrow table operations used by `merge`: whether `pa.concat_tables` of
the accumulated and current table succeeds, whether `sort_by("timestamp")`
of a table succeeds, and whether `pq.write_table` of the merged table
succeeds — real pyarrow can fail on each, e.g. `concat_tables` on
schema-mismatched tables).  Each is an opaque but fixed function; the
theorems quantify over them. -/
structure Externals where
  md5 : List Nat → String
  jsonParse : List Nat → Option PyRep
  gtfsRtParse : List Nat → Option PyRep
  jsonSerialize : List (String × String) → List Nat
  inferType : PyRep → Nat
  schemaLines : Nat → Nat
  fromPydictOk : Nat → PyRep → Bool
  writeOk : Bool
  encodedSize : List Row → Nat
  buffer_size_mb : Nat
  concatOk : List Row → List Row → Bool
  sortOk : List Row → Bool
  tableToBytesOk : List Row → Bool

/-- `parser.serialize` applied to a parsed value: identity on bytes (the
RAW parser), the external JSON encoder on objects. -/
def serializeRep (ex : Externals) : PyRep → List Nat
  | .bytes b => b
  | .jobj f => ex.jsonSerialize f

/-- Keys of `ParquetBridge.schema_cache`.  The dict holds tuple keys
`(collection_name, content_type)`, but the source's membership test
`if collection_name in self.schema_cache` compares the *bare string*
against the keys, so both shapes are represented. -/
inductive SchemaKey where
  | str (collection_name : String)
  | pair (collection_name : String) (content_type : ContentType)
deriving Repr, DecidableEq

abbrev SchemaCache := List (SchemaKey × Nat)

def pyDictContains (cache : SchemaCache) (k : SchemaKey) : Bool :=
  cache.any (fun kv => kv.1 = k)

def pyDictGet (cache : SchemaCache) (k : SchemaKey) : Option Nat :=
  (cache.find? (fun kv => kv.1 = k)).map (fun kv => kv.2)

/-- Python dict assignment: update in place if the key exists, else append. -/
def pyDictInsert (cache : SchemaCache) (k : SchemaKey) (v : Nat) : SchemaCache :=
  if pyDictContains cache k then
    cache.map (fun kv => if kv.1 = k then (k, v) else kv)
  else cache ++ [(k, v)]

def pyDictErase (cache : SchemaCache) (k : SchemaKey) : SchemaCache :=
  cache.filter (fun kv => ¬ kv.1 = k)

/-- `get_parser(content_type).parse(bytes_data)`: JSON and GTFS-RT parse
via the external parsers (`none` = `MissMatchingTypesException`); every
other content type falls back to `BytesParser`, which returns its `bytes`
input unchanged (the engine always passes `bytes`, so it never raises). -/
def get_parser_parse (ex : Externals) (bytes_data : List Nat) :
    ContentType → Option PyRep
  | .json => ex.jsonParse bytes_data
  | .gtfs_rt => ex.gtfsRtParse bytes_data
  | _ => some (.bytes bytes_data)

/-- One attempt inside `ParquetBridge.parse_data`'s `try` block: parse, and
raise `MissMatchingTypesException` (caught by the same `except`) when the
result is empty *and* the content type is not RAW.  `none` means the
`except MissMatchingTypesException` branch runs. -/
def ParquetBridge.parse_attempt (ex : Externals) (bytes_data : List Nat)
    (content_type : ContentType) : Option PyRep :=
  match get_parser_parse ex bytes_data content_type with
  | none => none
  | some result =>
      if pyFalsyRep result ∧ content_type ≠ ContentType.raw then none
      else some result

def rawWriteErrorMsg : String :=
  "Cannot write raw data to parquet, even if it is not parsed"

/-- `ParquetBridge.parse_data`: on a mismatch, RAW content raises the hard
`AnotherWorldException`, anything else retries once as RAW (the recursion
always reaches RAW in one step, so it is unrolled). -/
def ParquetBridge.parse_data (ex : Externals) (bytes_data : List Nat)
    (content_type : ContentType) : Except Err (PyRep × ContentType) :=
  match ParquetBridge.parse_attempt ex bytes_data content_type with
  | some result => .ok (result, content_type)
  | none =>
      if content_type = ContentType.raw then .error (.anotherWorld rawWriteErrorMsg)
      else
        match ParquetBridge.parse_attempt ex bytes_data ContentType.raw with
        | some result => .ok (result, ContentType.raw)
        | none => .error (.anotherWorld rawWriteErrorMsg)

/-- `ParquetBridge.infer_schema`: the cache-hit test is
`if collection_name in self.schema_cache` — the bare string against a dict
whose keys are `(collection, content_type)` tuples — while retrieval and
insertion use the tuple key.  A hit would return the tuple entry with
`used_cache = True` (KeyError if that entry were absent); a miss infers the
schema, rejects it when its rendering exceeds 100 lines, and caches it
under the tuple key. -/
def ParquetBridge.infer_schema (ex : Externals) (cache : SchemaCache)
    (representation : PyRep) (collection_name : String)
    (content_type : ContentType) : Except Err (Nat × Bool × SchemaCache) :=
  if pyDictContains cache (.str collection_name) then
    match pyDictGet cache (.pair collection_name content_type) with
    | some schema => .ok (schema, true, cache)
    | none => .error .keyError
  else
    let schema := ex.inferType representation
    if ex.schemaLines schema > 100 then .error (.anotherWorld "Schema too large")
    else .ok (schema, false, pyDictInsert cache (.pair collection_name content_type) schema)

structure BridgeResult where
  content_type : ContentType
  size : Nat
  original_size : Nat
deriving Repr, DecidableEq

/-- Recursion bound for `write_single`: the Python method can in principle
recurse forever (a RAW build failure without a cache hit retries RAW); the
fuel converts that divergence into an error. -/
def writeSingleFuel : Nat := 4

/-- `ParquetBridge.write_single`: parse (falling back to RAW), infer the
schema (on a caught schema failure retry as RAW, unless already RAW),
build the single-row table (on failure: evict and retry with the same
content type if the schema came from the cache, else retry as RAW), then
write with snappy.  Returns the outcome together with the schema cache as
left by the call (the cache mutates even on failing paths). -/
def ParquetBridge.write_single (ex : Externals) :
    Nat → SchemaCache → List Nat → Int → String → Option ContentType →
    Except Err (BridgeResult × List Row) × SchemaCache
  | 0, cache, _, _, _, _ => (.error .fuelExhausted, cache)
  | fuel + 1, cache, bytes_data, timestamp, collection_name, content_type =>
    let ct0 := content_type.getD ContentType.raw
    match ParquetBridge.parse_data ex bytes_data ct0 with
    | .error e => (.error e, cache)
    | .ok (representation, ct) =>
      match ParquetBridge.infer_schema ex cache representation collection_name ct with
      | .error (.anotherWorld m) =>
          if ct = ContentType.raw then (.error (.anotherWorld m), cache)
          else ParquetBridge.write_single ex fuel cache bytes_data timestamp
            collection_name (some ContentType.raw)
      | .error e => (.error e, cache)
      | .ok (schema, used_cache, cache1) =>
          if ex.fromPydictOk schema representation then
            if ex.writeOk then
              let rows : List Row :=
                [{ data := serializeRep ex representation, ts := timestamp }]
              (.ok ({ content_type := ct, size := ex.encodedSize rows,
                      original_size := bytes_data.length }, rows), cache1)
            else (.error (.anotherWorld "Error while writing parquet file"), cache1)
          else
            if used_cache then
              ParquetBridge.write_single ex fuel
                (pyDictErase cache1 (.pair collection_name ct))
                bytes_data timestamp collection_name (some ct)
            else
              ParquetBridge.write_single ex fuel cache1 bytes_data timestamp
                collection_name (some ContentType.raw)

/-- `pq.read_table` on a blob: the decoded rows, or failure. -/
def pqReadTable : Blob → Option (List Row)
  | .table rows => some rows
  | .corrupt => none

/-- Python truthiness of the running `table` in `merge`: `None` and a
zero-row table are falsy. -/
def pyTableTruthy : Option (List Row) → Bool
  | none => false
  | some rows => !rows.isEmpty

/-- The loop of `ParquetBridge.merge`.  The whole body sits in one `try`:
any of `pq.read_table`, `pa.concat_tables` and `sort_by("timestamp")` can
raise, and each appends the id to `skipped`.  A failed read or a failed
concat leaves `table` unchanged (the assignment did not complete); a
failed sort, however, happens *after* `table = (table and
pa.concat_tables([table, current])) or current` rebound `table`, so the
combined (or current) unsorted rows stay in `table` even though the id is
reported skipped.  When `table` is falsy, Python's `and` short-circuits
and `concat_tables` is not evaluated at all. -/
def ParquetBridge.mergeLoop (ex : Externals) :
    Option (List Row) → List String → List (Blob × String) →
    Option (List Row) × List String
  | table, skipped, [] => (table, skipped)
  | table, skipped, (data, file_id) :: rest =>
    match pqReadTable data with
    | none => ParquetBridge.mergeLoop ex table (skipped ++ [file_id]) rest
    | some current_table =>
        if pyTableTruthy table then
          if ex.concatOk (table.getD []) current_table then
            let combined := table.getD [] ++ current_table
            if ex.sortOk combined then
              ParquetBridge.mergeLoop ex (some (pySortAsc Row.ts combined))
                skipped rest
            else
              ParquetBridge.mergeLoop ex (some combined)
                (skipped ++ [file_id]) rest
          else
            ParquetBridge.mergeLoop ex table (skipped ++ [file_id]) rest
        else
          if ex.sortOk current_table then
            ParquetBridge.mergeLoop ex (some (pySortAsc Row.ts current_table))
              skipped rest
          else
            ParquetBridge.mergeLoop ex (some current_table)
              (skipped ++ [file_id]) rest

/-- `ParquetBridge.merge`.  The Python return value is
`(table and _table_to_bytes(table), skipped)`: serialization is identity in
this model, and callers test the first component with `pyTableTruthy`
(mirroring `if result_bytes:`, where `None` and an empty table are falsy
but a `BytesIO` is always truthy).  `_table_to_bytes` is only evaluated
for a truthy table and raises `AnotherWorldException` when
`pq.write_table` fails, so `merge` itself can raise. -/
def ParquetBridge.merge (ex : Externals) (generator : List (Blob × String)) :
    Except Err (Option (List Row) × List String) :=
  let r := ParquetBridge.mergeLoop ex none [] generator
  if pyTableTruthy r.1 then
    if ex.tableToBytesOk (r.1.getD []) then .ok r
    else .error (.anotherWorld "Error while writing parquet file")
  else .ok r

/-- `ParquetBridge.read`: `ContentType(content_type)` raises on `None` or
an unknown wire integer; a corrupt blob makes the parquet read raise; rows
are filtered by the inclusive timestamp range, sorted per the order-by
list, and truncated by `if limit:`.  Serialization through the parser is
the identity on the stored serialized bytes in this model. -/
def ParquetBridge.read (blob : Blob) (content_type : Option Nat)
    (min_timestamp max_timestamp : Int) (ascending : Bool)
    (limit : Option Nat) : Except Err (List Row) :=
  match content_type.bind ContentType.ofValue with
  | none => .error .valueError
  | some _ =>
    match blob with
    | .corrupt => .error .ioError
    | .table rows =>
      let inRange := rows.filter (fun r =>
        min_timestamp ≤ r.ts ∧ r.ts ≤ max_timestamp)
      let ordered := if ascending then pySortAsc Row.ts inRange
        else pySortDesc Row.ts inRange
      .ok (if pyTruthy limit then ordered.take (limit.getD 0) else ordered)

/-!
## Engine (`src/core/engine.py`)
-/

structure EngineState where
  catalog : Catalog
  blobs : BlobStore
  hash_cache : List (String × Option String)
  schema_cache : SchemaCache
  uuid_counter : Nat
deriving Repr, DecidableEq

/-- Fresh uuids are drawn from a counter (`uuid4` in the source). -/
def freshUuid (n : Nat) : String := "uuid-" ++ toString n

def hashCacheContains (hc : List (String × Option String)) (c : String) : Bool :=
  hc.any (fun kv => kv.1 = c)

/-- Python `dict.get`: a missing key and a stored `None` both yield `None`. -/
def hashCacheGet (hc : List (String × Option String)) (c : String) : Option String :=
  match hc.find? (fun kv => kv.1 = c) with
  | some kv => kv.2
  | none => none

def hashCacheSet (hc : List (String × Option String)) (c : String)
    (v : Option String) : List (String × Option String) :=
  if hashCacheContains hc c then
    hc.map (fun kv => if kv.1 = c then (c, v) else kv)
  else hc ++ [(c, v)]

/-- `Engine.create_collection`: filesystem namespace creation does not
touch the blob map; then the catalog row is created. -/
def Engine.create_collection (s : EngineState) (collection_name : String)
    (allow_existing : Bool) : Except Err (Option CollectionRec × EngineState) :=
  match PersistenceManager.create_collection s.catalog collection_name allow_existing with
  | .error e => .error e
  | .ok (c, cat) => .ok (c, { s with catalog := cat })

/-- `Engine.check_collection`: only `AnotherWorldException` is caught; the
`.ok (none, _)` branch of creation is unreachable here because the lookup
just failed, so creation with `allow_existing = False` returns a row. -/
def Engine.check_collection (s : EngineState) (collection_name : String)
    (create_collection : Bool) : Except Err (CollectionRec × EngineState) :=
  match PersistenceManager.get_collection_by_name s.catalog collection_name with
  | .ok c => .ok (c, s)
  | .error (.anotherWorld _) =>
      if create_collection then
        match Engine.create_collection s collection_name false with
        | .error e => .error e
        | .ok (some c, s1) => .ok (c, s1)
        | .ok (none, _) => .error .attributeError
      else .error (.anotherWorld ("Collection " ++ collection_name ++ " does not exist"))
  | .error e => .error e

/-- `Engine._get_bytes_for_buffer` over a buffer list: read every buffer's
blob up front (a missing blob raises `FileNotFoundError`). -/
def Engine.readBuffers (bs : BlobStore) (collection_name : String) :
    List BufferedFragmentRec → Option (List (BufferedFragmentRec × Blob))
  | [] => some []
  | b :: rest =>
    match BlobStore.read bs collection_name b.uuid with
    | none => none
    | some blob =>
        (Engine.readBuffers bs collection_name rest).map (fun l => (b, blob) :: l)

/-- `defaultdict(list)` key order: content types in first-appearance order. -/
def contentTypeKeys (buffers : List BufferedFragmentRec) : List Nat :=
  buffers.foldl (fun acc b =>
    if acc.contains b.content_type then acc else acc ++ [b.content_type]) []

/-- The `(bytes, uuid)` pairs accumulated for one content type, in buffer
order. -/
def groupFor (pairs : List (BufferedFragmentRec × Blob)) (ct : Nat) :
    List (Blob × String) :=
  (pairs.filter (fun p => p.1.content_type = ct)).map (fun p => (p.2, p.1.uuid))

/-- The per-content-type loop of `Engine.flush`: merge the group; if the
merge raises (its final `_table_to_bytes` can), the `except` branch
promotes *all* of the group's buffers to stand-alone fragments and
continues with the next group.  Otherwise promote the skipped buffers, and
if merged bytes exist (`if result_bytes:`), write the new fragment blob,
commit `flush_buffer`, then delete the promoted buffers' blobs. -/
def Engine.flushLoop (ex : Externals) (collection : CollectionRec)
    (collection_name : String) :
    EngineState → List (Nat × List (Blob × String)) → EngineState
  | s, [] => s
  | s, (ct, items) :: rest =>
    match ParquetBridge.merge ex items with
    | .error _ =>
        let s1 : EngineState := { s with
          catalog := PersistenceManager.flush_skipped_buffers s.catalog collection
            (items.map (fun it => it.2)) }
        Engine.flushLoop ex collection collection_name s1 rest
    | .ok merged =>
        let s1 : EngineState := { s with
          catalog := PersistenceManager.flush_skipped_buffers s.catalog collection merged.2 }
        if pyTableTruthy merged.1 then
          let rows := merged.1.getD []
          let new_fragment_uuid := freshUuid s1.uuid_counter
          let s2 : EngineState := { s1 with uuid_counter := s1.uuid_counter + 1 }
          let not_skipped := (items.filter (fun it => ¬ merged.2.contains it.2)).map
            (fun it => it.2)
          let s3 : EngineState := { s2 with
            blobs := BlobStore.write s2.blobs collection_name new_fragment_uuid (.table rows) }
          let s4 : EngineState := { s3 with
            catalog := PersistenceManager.flush_buffer s3.catalog collection
              new_fragment_uuid ct not_skipped }
          let s5 : EngineState := { s4 with
            blobs := IOManager.remove_fragments s4.blobs collection_name not_skipped }
          Engine.flushLoop ex collection collection_name s5 rest
        else Engine.flushLoop ex collection collection_name s1 rest

/-- `Engine.flush`: lock the collection's unlocked buffers, read all their
blobs, group by content type, and run the merge loop. -/
def Engine.flush (ex : Externals) (s : EngineState) (collection_name : String) :
    Except Err Bool × EngineState :=
  match PersistenceManager.get_collection_by_name s.catalog collection_name with
  | .error e => (.error e, s)
  | .ok collection =>
    let locked := PersistenceManager.get_and_lock_buffers s.catalog collection
    let s1 : EngineState := { s with catalog := locked.2 }
    match Engine.readBuffers s1.blobs collection_name locked.1 with
    | none => (.error .ioError, s1)
    | some pairs =>
        let groups := (contentTypeKeys locked.1).map (fun ct => (ct, groupFor pairs ct))
        (.ok true, Engine.flushLoop ex collection collection_name s1 groups)

/-- The tail of `Engine.store` after the dedup check passed and the cache
was updated: allocate the buffer uuid, write the blob through
`write_single` (visible only if the write scope exits successfully), log
the buffer row, and flush when the unlocked-buffer size exceeds
`BUFFER_SIZE` megabytes. -/
def Engine.storeTail (ex : Externals) (s : EngineState)
    (collection : CollectionRec) (collection_name : String) (timestamp : Int)
    (data : List Nat) (data_hash : String) (content_type : Option ContentType) :
    Except Err Unit × EngineState :=
  let buffer_uuid := freshUuid s.uuid_counter
  let s1 : EngineState := { s with uuid_counter := s.uuid_counter + 1 }
  match ParquetBridge.write_single ex writeSingleFuel s.schema_cache data
      timestamp collection_name content_type with
  | (.error e, cache1) => (.error e, { s1 with schema_cache := cache1 })
  | (.ok (result, rows), cache1) =>
    let s2 : EngineState :=
      { s1 with
          schema_cache := cache1,
          blobs := BlobStore.write s1.blobs collection_name buffer_uuid (.table rows) }
    let s3 : EngineState := { s2 with
      catalog := PersistenceManager.log_buffer s2.catalog collection.id timestamp
        buffer_uuid result.size result.original_size result.content_type.value
        data_hash }
    match PersistenceManager.get_unlocked_buffers_size s3.catalog collection_name with
    | .error e => (.error e, s3)
    | .ok sz =>
        if sz > ex.buffer_size_mb * 1024 * 1024 then
          match Engine.flush ex s3 collection_name with
          | (.error e, s4) => (.error e, s4)
          | (.ok _, s4) => (.ok (), s4)
        else (.ok (), s3)

/-- `Engine.store`: resolve (or create) the collection, hash the payload,
warm the dedup cache from the catalog on first sight of the collection,
silently drop on a hash match, otherwise update the cache *before* any
write and run the write/log/flush tail. -/
def Engine.store (ex : Externals) (s : EngineState) (collection_name : String)
    (timestamp : Int) (data : List Nat) (content_type : Option ContentType)
    (create_collection : Bool) : Except Err Unit × EngineState :=
  match Engine.check_collection s collection_name create_collection with
  | .error e => (.error e, s)
  | .ok (collection, s1) =>
    let data_hash := ex.md5 data
    let warmed := hashCacheSet s1.hash_cache collection_name
      (PersistenceManager.get_last_hash s1.catalog collection_name)
    let s2 : EngineState :=
      if hashCacheContains s1.hash_cache collection_name then s1
      else { s1 with hash_cache := warmed }
    if hashCacheGet s2.hash_cache collection_name = some data_hash then
      (.ok (), s2)
    else
      let s3 : EngineState := { s2 with
        hash_cache := hashCacheSet s2.hash_cache collection_name (some data_hash) }
      Engine.storeTail ex s3 collection collection_name timestamp data data_hash
        content_type

/-- The fragment/buffer sources scanned by `Engine.query` when
`skip_data` is false, in `itertools.chain(fragments, buffers)` order:
`(uuid, content_type)` with the fragment's nullable content type. -/
def Engine.query_sources (fragments : List FragmentRec)
    (buffers : List BufferedFragmentRec) : List (String × Option Nat) :=
  fragments.map (fun f => (f.uuid, f.content_type))
    ++ buffers.map (fun b => (b.uuid, some b.content_type))

/-- `Engine._get_fragment_items` over all sources: open each blob and read
it with the range/order/limit pushdown, concatenating the rows. -/
def Engine.collectRows (bs : BlobStore) (collection_name : String)
    (min_timestamp max_timestamp : Int) (ascending : Bool) (limit : Option Nat) :
    List (String × Option Nat) → Except Err (List (Option (List Nat) × Int))
  | [] => .ok []
  | (uuid, ct) :: rest =>
    match BlobStore.read bs collection_name uuid with
    | none => .error .ioError
    | some blob =>
      match ParquetBridge.read blob ct min_timestamp max_timestamp ascending limit with
      | .error e => .error e
      | .ok rows =>
        match Engine.collectRows bs collection_name min_timestamp max_timestamp
            ascending limit rest with
        | .error e => .error e
        | .ok tail => .ok (rows.map (fun r => (some r.data, r.ts)) ++ tail)

/-- The `skip_data` branch of `Engine.query` before slicing: `(None, ts)`
pairs from the fragments' items and from the buffers, filtered by the
range, sorted by timestamp with `reverse = not ascending`. -/
def Engine.querySkipData (cat : Catalog) (fragments : List FragmentRec)
    (buffers : List BufferedFragmentRec) (min_timestamp max_timestamp : Int)
    (ascending : Bool) : List (Option (List Nat) × Int) :=
  let items := PersistenceManager.get_items_from_fragments cat fragments
  let data := ((items.map (fun i => i.timestamp)
      ++ buffers.map (fun b => b.timestamp)).filter (fun ts =>
        min_timestamp ≤ ts ∧ ts ≤ max_timestamp)).map
      (fun ts => ((none : Option (List Nat)), ts))
  if ascending then pySortAsc (fun x => x.2) data
  else pySortDesc (fun x => x.2) data

/-- `Engine.query`: an unknown collection yields `[]`; with `skip_data` the
sorted timestamp list is sliced `data[offset:limit] if limit else
data[offset:]`; otherwise all sources are read, globally sorted, then
`if offset:` drops and `if limit:` truncates (so `limit = 0` and
`offset = 0` are no-ops). -/
def Engine.query (s : EngineState) (collection_name : String)
    (min_timestamp max_timestamp : Int) (ascending : Bool)
    (limit offset : Option Nat) (skip_data : Bool) :
    Except Err (List (Option (List Nat) × Int)) :=
  match PersistenceManager.get_collection_by_name s.catalog collection_name with
  | .error (.anotherWorld _) => .ok []
  | .error e => .error e
  | .ok collection =>
    let fragments := PersistenceManager.query s.catalog collection min_timestamp
      max_timestamp ascending limit none
    let buffers := PersistenceManager.query_buffers_do_not_lock s.catalog collection
      min_timestamp max_timestamp ascending limit
    if skip_data then
      let data := Engine.querySkipData s.catalog fragments buffers min_timestamp
        max_timestamp ascending
      .ok (if pyTruthy limit then (data.take (limit.getD 0)).drop (offset.getD 0)
        else data.drop (offset.getD 0))
    else
      match Engine.collectRows s.blobs collection_name min_timestamp max_timestamp
          ascending limit (Engine.query_sources fragments buffers) with
      | .error e => .error e
      | .ok collected =>
        let sorted := if ascending then pySortAsc (fun x => x.2) collected
          else pySortDesc (fun x => x.2) collected
        let afterOffset := if pyTruthy offset then sorted.drop (offset.getD 0)
          else sorted
        .ok (if pyTruthy limit then afterOffset.take (limit.getD 0) else afterOffset)

/-- `Engine.delete_collection`: catalog delete first, blob-store namespace
delete second. -/
def Engine.delete_collection (s : EngineState) (collection_name : String) :
    Except Err Unit × EngineState :=
  match PersistenceManager.delete_collection s.catalog collection_name with
  | .error e => (.error e, s)
  | .ok cat =>
      (.ok (),
       { s with
           catalog := cat,
           blobs := IOManager.remove_collection s.blobs collection_name })

/-- The `skip_data` result of `Engine.query` for a resolved collection,
spelled out: the sorted timestamp list sliced by
`data[offset:limit] if limit else data[offset:]`.  This restates the
corresponding fragment of `Engine.query` verbatim, for use in theorem
statements. -/
def Engine.querySkipSlice (s : EngineState) (col : CollectionRec)
    (min_timestamp max_timestamp : Int) (ascending : Bool)
    (limit offset : Option Nat) : List (Option (List Nat) × Int) :=
  let data := Engine.querySkipData s.catalog
    (PersistenceManager.query s.catalog col min_timestamp max_timestamp
      ascending limit none)
    (PersistenceManager.query_buffers_do_not_lock s.catalog col min_timestamp
      max_timestamp ascending limit)
    min_timestamp max_timestamp ascending
  if pyTruthy limit then (data.take (limit.getD 0)).drop (offset.getD 0)
  else data.drop (offset.getD 0)

/-- The final sort / `if offset:` / `if limit:` stage of `Engine.query`
applied to collected rows `L`, restated verbatim for theorem statements. -/
def Engine.collectSlice (L : List (Option (List Nat) × Int)) (ascending : Bool)
    (limit offset : Option Nat) : List (Option (List Nat) × Int) :=
  let sorted := if ascending then pySortAsc (fun x => x.2) L
    else pySortDesc (fun x => x.2) L
  let afterOffset := if pyTruthy offset then sorted.drop (offset.getD 0)
    else sorted
  if pyTruthy limit then afterOffset.take (limit.getD 0) else afterOffset

/-!
## Derived notions used in theorem statements, and concrete fixtures
-/

/-- The ids of the inputs whose parquet read fails, in arrival order. -/
def readFailures (generator : List (Blob × String)) : List String :=
  (generator.filter (fun x => (pqReadTable x.1).isNone)).map (fun x => x.2)

/-- The rows of all successfully read tables, in arrival order. -/
def successRows (generator : List (Blob × String)) : List Row :=
  (generator.filterMap (fun x => pqReadTable x.1)).flatten

/-- Benign externals: constant hash, parsers that always mismatch (forcing
RAW), inference to a fixed small schema, pyarrow operations (table
construction, concat, sort, parquet writes) that all succeed, default 6 MB
buffer threshold. -/
def exBenign : Externals :=
  { md5 := fun _ => "h"
    jsonParse := fun _ => none
    gtfsRtParse := fun _ => none
    jsonSerialize := fun _ => []
    inferType := fun _ => 1
    schemaLines := fun _ => 1
    fromPydictOk := fun _ _ => true
    writeOk := true
    encodedSize := fun _ => 1
    buffer_size_mb := 6
    concatOk := fun _ _ => true
    sortOk := fun _ => true
    tableToBytesOk := fun _ => true }

/-- Externals whose parquet write fails (`pq.write_table` raises), used for
the failed-store scenario. -/
def exWriteFails : Externals := { exBenign with writeOk := false }

/-- Externals whose `pa.concat_tables` always raises (as it does on
schema-mismatched tables, which the system itself produces for JSON
buffers because the broken schema cache re-infers a schema per payload). -/
def exConcatFails : Externals := { exBenign with concatOk := fun _ _ => false }

/-- Merge input with two readable single-row tables (whose concat will be
made to fail). -/
def mergeGenTwoGood : List (Blob × String) :=
  [ (.table [{ data := [1], ts := 1 }], "a")
  , (.table [{ data := [2], ts := 2 }], "b") ]

/-- A collection `"a"` with three unlocked RAW buffered fragments at
timestamps 1, 2, 3 and their single-row blobs. -/
def stateThreeBuffers : EngineState :=
  { catalog :=
      { collections := [{ id := 1, name := "a" }]
        fragments := []
        buffers :=
          [ { timestamp := 1, collection_id := 1, content_type := 1, size := 1,
              original_size := 1, uuid := "u1", locked := false, hash := none }
          , { timestamp := 2, collection_id := 1, content_type := 1, size := 1,
              original_size := 1, uuid := "u2", locked := false, hash := none }
          , { timestamp := 3, collection_id := 1, content_type := 1, size := 1,
              original_size := 1, uuid := "u3", locked := false, hash := none } ]
        items := []
        next_collection_id := 2 }
    blobs :=
      [ (("a", "u1"), .table [{ data := [1], ts := 1 }])
      , (("a", "u2"), .table [{ data := [2], ts := 2 }])
      , (("a", "u3"), .table [{ data := [3], ts := 3 }]) ]
    hash_cache := []
    schema_cache := []
    uuid_counter := 0 }

/-- A collection `"a"` with one committed fragment, one buffer and their
blobs, used for the delete-collection witness. -/
def stateOneFragment : EngineState :=
  { catalog :=
      { collections := [{ id := 1, name := "a" }]
        fragments := [{ uuid := "f1", content_type := some 1, collection_id := 1 }]
        buffers :=
          [ { timestamp := 2, collection_id := 1, content_type := 1, size := 1,
              original_size := 1, uuid := "u1", locked := false, hash := none } ]
        items :=
          [ { fragment_id := "f1", collection_id := 1, timestamp := 1, size := 1,
              original_size := 1, content_type := some 1, hash := none } ]
        next_collection_id := 2 }
    blobs :=
      [ (("a", "f1"), .table [{ data := [1], ts := 1 }])
      , (("a", "u1"), .table [{ data := [2], ts := 2 }]) ]
    hash_cache := []
    schema_cache := []
    uuid_counter := 0 }

/-- The state left by deleting collection `"a"` from `stateOneFragment`. -/
def stateDeleted : EngineState :=
  { catalog :=
      { collections := []
        fragments := []
        buffers := []
        items := []
        next_collection_id := 2 }
    blobs := []
    hash_cache := []
    schema_cache := []
    uuid_counter := 0 }

/-- A fresh single-collection state with no data, used by the store
witnesses. -/
def stateEmptyCollection : EngineState :=
  { catalog :=
      { collections := [{ id := 1, name := "a" }]
        fragments := []
        buffers := []
        items := []
        next_collection_id := 2 }
    blobs := []
    hash_cache := []
    schema_cache := []
    uuid_counter := 0 }

/-- The state after one successful `store` of payload `[7]` at timestamp 1
into `stateEmptyCollection` with benign externals. -/
def stateAfterStore : EngineState :=
  { catalog :=
      { collections := [{ id := 1, name := "a" }]
        fragments := []
        buffers :=
          [ { timestamp := 1, collection_id := 1, content_type := 1, size := 1,
              original_size := 1, uuid := "uuid-0", locked := false,
              hash := some "h" } ]
        items := []
        next_collection_id := 2 }
    blobs := [(("a", "uuid-0"), .table [{ data := [7], ts := 1 }])]
    hash_cache := [("a", some "h")]
    schema_cache := [(SchemaKey.pair "a" .raw, 1)]
    uuid_counter := 1 }

/-- A catalog holding one JSON-typed buffered fragment, the failing input
for the skipped-flush content-type divergence. -/
def catalogOneJsonBuffer : Catalog :=
  { collections := [{ id := 1, name := "a" }]
    fragments := []
    buffers :=
      [ { timestamp := 5, collection_id := 1, content_type := 0, size := 10,
          original_size := 20, uuid := "u1", locked := true, hash := none } ]
    items := []
    next_collection_id := 2 }

/-- Merge input with two good tables around one corrupt blob. -/
def mergeGenExample : List (Blob × String) :=
  [ (.table [{ data := [1], ts := 2 }], "a")
  , (.corrupt, "b")
  , (.table [{ data := [0], ts := 1 }], "c") ]

/-! ## Theorems -/

theorem pyInsert_perm {α : Type} (le : α → α → Bool) (a : α) (l : List α) :
    (pyInsert le a l).Perm (a :: l) := by
  induction l with
  | nil => exact List.Perm.refl _
  | cons b l ih =>
      unfold pyInsert
      by_cases h : le b a = true
      · rw [if_pos h]
        exact (ih.cons b).trans (List.Perm.swap a b l)
      · rw [if_neg h]

theorem pyInsert_pairwise {α : Type} (le : α → α → Bool)
    (total : ∀ x y, ¬ le x y = true → le y x = true)
    (trans : ∀ x y z, le x y = true → le y z = true → le x z = true)
    (a : α) (l : List α) (h : l.Pairwise (fun x y => le x y = true)) :
    (pyInsert le a l).Pairwise (fun x y => le x y = true) := by
  induction l with
  | nil => simp [pyInsert]
  | cons b l ih =>
      rw [List.pairwise_cons] at h
      obtain ⟨hb, hl⟩ := h
      unfold pyInsert
      by_cases hba : le b a = true
      · rw [if_pos hba]
        rw [List.pairwise_cons]
        refine ⟨?_, ih hl⟩
        intro x hx
        rw [(pyInsert_perm le a l).mem_iff] at hx
        rcases List.mem_cons.mp hx with rfl | hx
        · exact hba
        · exact hb x hx
      · rw [if_neg hba]
        have hab : le a b = true := total b a hba
        rw [List.pairwise_cons]
        refine ⟨?_, List.pairwise_cons.mpr ⟨hb, hl⟩⟩
        intro x hx
        rcases List.mem_cons.mp hx with rfl | hx
        · exact hab
        · exact trans a b x hab (hb x hx)

theorem pyStableSort_perm_aux {α : Type} (le : α → α → Bool) (l : List α) :
    ∀ acc, (l.foldl (fun acc a => pyInsert le a acc) acc).Perm (acc ++ l) := by
  induction l with
  | nil => intro acc; simp
  | cons a l ih =>
      intro acc
      simp only [List.foldl_cons]
      refine ((ih (pyInsert le a acc)).trans ?_)
      refine (((pyInsert_perm le a acc).append_right l).trans ?_)
      exact List.perm_middle.symm

theorem pyStableSort_perm {α : Type} (le : α → α → Bool) (l : List α) :
    (pyStableSort le l).Perm l := by
  simpa using pyStableSort_perm_aux le l []

theorem pyStableSort_pairwise {α : Type} (le : α → α → Bool)
    (total : ∀ x y, ¬ le x y = true → le y x = true)
    (trans : ∀ x y z, le x y = true → le y z = true → le x z = true)
    (l : List α) : (pyStableSort le l).Pairwise (fun x y => le x y = true) := by
  suffices h : ∀ acc, acc.Pairwise (fun x y => le x y = true) →
      (l.foldl (fun acc a => pyInsert le a acc) acc).Pairwise
        (fun x y => le x y = true) from h [] (List.Pairwise.nil)
  induction l with
  | nil => intro acc hacc; simpa using hacc
  | cons a l ih =>
      intro acc hacc
      simp only [List.foldl_cons]
      exact ih _ (pyInsert_pairwise le total trans a acc hacc)

theorem pySortAsc_perm {α : Type} (key : α → Int) (l : List α) :
    (pySortAsc key l).Perm l :=
  pyStableSort_perm _ l

theorem pySortDesc_perm {α : Type} (key : α → Int) (l : List α) :
    (pySortDesc key l).Perm l :=
  pyStableSort_perm _ l

theorem pySortAsc_pairwise {α : Type} (key : α → Int) (l : List α) :
    (pySortAsc key l).Pairwise (fun a b => key a ≤ key b) := by
  have h := pyStableSort_pairwise (fun a b : α => decide (key a ≤ key b))
    (fun x y hxy => by
      simp only [decide_eq_true_eq] at hxy ⊢
      omega)
    (fun x y z hxy hyz => by
      simp only [decide_eq_true_eq] at hxy hyz ⊢
      omega) l
  exact h.imp (fun hx => by simpa using hx)

theorem pySortDesc_pairwise {α : Type} (key : α → Int) (l : List α) :
    (pySortDesc key l).Pairwise (fun a b => key b ≤ key a) := by
  have h := pyStableSort_pairwise (fun a b : α => decide (key b ≤ key a))
    (fun x y hxy => by
      simp only [decide_eq_true_eq] at hxy ⊢
      omega)
    (fun x y z hxy hyz => by
      simp only [decide_eq_true_eq] at hxy hyz ⊢
      omega) l
  exact h.imp (fun hx => by simpa using hx)

/-- Claim C3 (counterexample): the claim states that `advanced_query` raises
for every pair with `max - min` greater than 7 days.  For
`min = 0, max = 604801` (7 days plus one second, a difference strictly
greater than 7 days) the guard does not fire: `timedelta.days` floors to 7,
and the call goes through to the engine. -/
theorem claim_C3_counterexample :
    Orchestrator.advanced_query (Except.ok ([] : List Nat)) 0 604801
      = Except.ok [] := rfl

/-- Claim C3 (amended): `Orchestrator.advanced_query` raises the range
error exactly when `max - min ≥ 8` days (floor of the day count exceeds 7);
in particular differences of at most 7 days are never rejected, but
differences strictly between 7 and 8 days are accepted as well. -/
theorem claim_C3_range_guard {α : Type} (engineCall : Except Err α)
    (min_timestamp max_timestamp : Int) :
    (8 * 86400 ≤ max_timestamp - min_timestamp →
      Orchestrator.advanced_query engineCall min_timestamp max_timestamp
        = Except.error advancedQueryRangeError) ∧
    (max_timestamp - min_timestamp < 8 * 86400 →
      Orchestrator.advanced_query engineCall min_timestamp max_timestamp
        = engineCall) := by
  have hdays : timedeltaDays (max_timestamp - min_timestamp) > 7 ↔
      8 * 86400 ≤ max_timestamp - min_timestamp := by
    unfold timedeltaDays
    rw [Int.fdiv_eq_ediv _ (by norm_num)]
    constructor
    · intro h
      have h8 : 8 ≤ (max_timestamp - min_timestamp) / 86400 := by omega
      have := (Int.le_ediv_iff_mul_le (by norm_num : (0:Int) < 86400)).mp h8
      omega
    · intro h
      have : 8 * 86400 / 86400 ≤ (max_timestamp - min_timestamp) / 86400 :=
        Int.ediv_le_ediv (by norm_num) h
      omega
  constructor
  · intro h
    unfold Orchestrator.advanced_query
    rw [if_pos (hdays.mpr h)]
  · intro h
    unfold Orchestrator.advanced_query
    rw [if_neg (by intro hc; exact absurd (hdays.mp hc) (by omega))]

/-- Claim C3 (witness): instantiating the amended guard theorem at an
8-day difference (rejected) and at exactly 7 days (accepted). -/
theorem claim_C3_witness :
    Orchestrator.advanced_query (Except.ok ([] : List Nat)) 0 (8 * 86400)
      = Except.error advancedQueryRangeError ∧
    Orchestrator.advanced_query (Except.ok ([] : List Nat)) 0 (7 * 86400)
      = Except.ok [] :=
  ⟨(claim_C3_range_guard (Except.ok []) 0 (8 * 86400)).1 (by decide),
   (claim_C3_range_guard (Except.ok []) 0 (7 * 86400)).2 (by decide)⟩

/-- Claim C4 (counterexample): the identifier `"a/b"` contains `/`, a
character outside `[A-Za-z0-9_-]`, yet neither backend's check rejects it,
because `re.search` only demands that *some* character be in the class. -/
theorem claim_C4_counterexample :
    FileSystemIOManager.identifier_check "a/b" = Except.ok () ∧
    AzureBlobIOManager.identifier_check "a/b" = Except.ok () :=
  ⟨rfl, rfl⟩

/-- Claim C4 (amended): on both backends the identifier check raises the
invalid-argument error exactly when the identifier contains *no* character
from `[A-Za-z0-9_-]` (for example the empty identifier or one made entirely
of other characters); any identifier containing at least one such character
passes the check, even if it also contains characters outside the class. -/
theorem claim_C4_identifier_check (identifier : String) :
    (FileSystemIOManager.identifier_check identifier = Except.ok ()
      ↔ reSearchIdentClass identifier = true) ∧
    (AzureBlobIOManager.identifier_check identifier = Except.ok ()
      ↔ reSearchIdentClass identifier = true) ∧
    (identifier.toList ≠ [] → identifier.toList.all isIdentChar →
      FileSystemIOManager.identifier_check identifier = Except.ok ()
        ∧ AzureBlobIOManager.identifier_check identifier = Except.ok ()) := by
  refine ⟨?_, ?_, ?_⟩
  · unfold FileSystemIOManager.identifier_check
    cases h : reSearchIdentClass identifier <;> simp [h]
  · unfold AzureBlobIOManager.identifier_check
    cases h : reSearchIdentClass identifier <;> simp [h]
  · intro hne hall
    have hsearch : reSearchIdentClass identifier = true := by
      unfold reSearchIdentClass
      cases hl : identifier.toList with
      | nil => exact absurd hl hne
      | cons c cs =>
          have : isIdentChar c = true := by
            have := hall
            rw [hl] at this
            simp only [List.all_cons, Bool.and_eq_true] at this
            exact this.1
          simp [List.any_cons, this]
    unfold FileSystemIOManager.identifier_check AzureBlobIOManager.identifier_check
    rw [hsearch]
    exact ⟨rfl, rfl⟩

/-- Claim C4 (witness): the amended characterization applied to the
all-valid identifier `"abc_1-Z"` (accepted) and to `"!!"` (no valid
character, rejected via the iff). -/
theorem claim_C4_witness :
    FileSystemIOManager.identifier_check "abc_1-Z" = Except.ok () ∧
    AzureBlobIOManager.identifier_check "!!" ≠ Except.ok () :=
  ⟨((claim_C4_identifier_check "abc_1-Z").2.2 (by decide) (by decide)).1,
   fun h => by
     have := ((claim_C4_identifier_check "!!").2.1).mp h
     exact absurd this (by decide)⟩

/-- Claim C5 (code_bug): the schema cache never hits.  The first
`infer_schema` seeds the cache under the tuple key `("c", RAW)`; the second
call on the very same `(collection, content_type)` pair still returns
`used_cache = false` and re-infers, because the membership test
`if collection_name in self.schema_cache` compares the bare string `"c"`
against tuple keys and the adjacent retrieval/eviction lines index by the
tuple.  The spec's per-`(collection, content_type)` caching is the clear
intent; the string-keyed membership test is a slip. -/
theorem claim_C5_schema_cache_never_hits :
    ParquetBridge.infer_schema exBenign [] (.bytes [0]) "c" .raw
      = .ok (1, false, [(SchemaKey.pair "c" .raw, 1)]) ∧
    ParquetBridge.infer_schema exBenign [(SchemaKey.pair "c" .raw, 1)]
        (.bytes [0]) "c" .raw
      = .ok (1, false, [(SchemaKey.pair "c" .raw, 1)]) ∧
    pyDictContains [(SchemaKey.pair "c" .raw, 1)] (.pair "c" .raw) = true :=
  ⟨rfl, rfl, rfl⟩

/-- Claim C6 (code_bug): `flush_skipped_buffers` promotes a JSON buffered
fragment into a Fragment carrying the buffer's content type, but builds the
corresponding Item *without* a content type (`none`), so the Item's content
type differs from its parent Fragment's — violating the invariant, which
`flush_buffer` (copying `buffered_fragment.content_type` onto the Item) and
the non-nullable `item.content_type` column show to be the intent. -/
theorem claim_C6_skipped_item_content_type :
    ((PersistenceManager.flush_skipped_buffers catalogOneJsonBuffer
        { id := 1, name := "a" } ["u1"]).items.map (fun i => i.content_type)
      = [none]) ∧
    ((PersistenceManager.flush_skipped_buffers catalogOneJsonBuffer
        { id := 1, name := "a" } ["u1"]).fragments.map (fun f => f.content_type)
      = [some 0]) :=
  ⟨rfl, rfl⟩

theorem parse_attempt_raw (ex : Externals) (bytes_data : List Nat) :
    ParquetBridge.parse_attempt ex bytes_data ContentType.raw
      = some (.bytes bytes_data) := by
  unfold ParquetBridge.parse_attempt get_parser_parse
  simp

theorem parse_data_ok (ex : Externals) (bytes_data : List Nat)
    (content_type : ContentType) :
    ∃ representation ct, ParquetBridge.parse_data ex bytes_data content_type
      = .ok (representation, ct) := by
  unfold ParquetBridge.parse_data
  cases h : ParquetBridge.parse_attempt ex bytes_data content_type with
  | some r => exact ⟨r, content_type, rfl⟩
  | none =>
      have hct : content_type ≠ ContentType.raw := by
        intro hc
        rw [hc, parse_attempt_raw] at h
        exact Option.noConfusion h
      refine ⟨.bytes bytes_data, .raw, ?_⟩
      simp [hct, parse_attempt_raw]

/-- Claim C7 (counterexample): the empty payload has an empty RAW parse
result (`BytesParser` returns the bytes unchanged), yet `write_single`
does not raise: it successfully writes one RAW row. -/
theorem claim_C7_counterexample :
    ParquetBridge.write_single exBenign writeSingleFuel [] [] 0 "c" (some .raw)
      = (.ok ({ content_type := .raw, size := 1, original_size := 0 },
              [{ data := [], ts := 0 }]),
         [(SchemaKey.pair "c" .raw, 1)]) :=
  rfl

/-- Claim C7 (amended): for `bytes` payloads the RAW parser never fails and
an empty parse result does not count as failure for RAW (the emptiness
check in `parse_data` applies only to non-RAW content types, where it
triggers the fallback to RAW rather than an error).  Hence, provided the
pyarrow table construction and the parquet write succeed and the schema
stays within the 100-line bound, `write_single` always returns a written
row — in particular it writes the empty payload instead of raising, and
the hard `AnotherWorldException` of `parse_data` is unreachable on bytes
input. -/
theorem claim_C7_write_single_total (ex : Externals) (cache : SchemaCache)
    (bytes_data : List Nat) (timestamp : Int) (collection_name : String)
    (content_type : Option ContentType) (fuel : Nat)
    (hbuild : ∀ schema rep, ex.fromPydictOk schema rep = true)
    (hwrite : ex.writeOk = true)
    (hlines : ∀ schema, ex.schemaLines schema ≤ 100)
    (hcache : pyDictContains cache (.str collection_name) = false) :
    ∃ result rows cache1,
      ParquetBridge.write_single ex (fuel + 1) cache bytes_data timestamp
        collection_name content_type = (.ok (result, rows), cache1) := by
  obtain ⟨r, ct, hpd⟩ :=
    parse_data_ok ex bytes_data (content_type.getD ContentType.raw)
  have hinfer : ParquetBridge.infer_schema ex cache r collection_name ct
      = .ok (ex.inferType r, false,
          pyDictInsert cache (.pair collection_name ct) (ex.inferType r)) := by
    unfold ParquetBridge.infer_schema
    rw [hcache]
    simp only [Bool.false_eq_true, if_false]
    rw [if_neg (by exact Nat.not_lt.mpr (hlines _))]
  rw [ParquetBridge.write_single, hpd]
  simp only [hinfer, hbuild, hwrite, if_true]
  exact ⟨_, _, _, rfl⟩

/-- Claim C7 (witness): the amended theorem applied to the empty payload
with benign externals. -/
theorem claim_C7_witness :
    ∃ result rows cache1,
      ParquetBridge.write_single exBenign (3 + 1) [] [] 0 "c" (some .raw)
        = (.ok (result, rows), cache1) :=
  claim_C7_write_single_total exBenign [] [] 0 "c" (some .raw) 3
    (fun _ _ => rfl) rfl (fun _ => (by decide : (1 : Nat) ≤ 100)) rfl

theorem pyTableTruthy_false_getD {table : Option (List Row)}
    (ht : ¬ pyTableTruthy table = true) : table.getD [] = [] := by
  cases table with
  | none => rfl
  | some r0 =>
      have : r0.isEmpty = true := by
        simp only [pyTableTruthy, Bool.not_eq_true'] at ht
        simpa using ht
      rw [List.isEmpty_iff] at this
      simp [this]

theorem mergeLoop_all_fail (ex : Externals) (generator : List (Blob × String)) :
    ∀ table skipped, (∀ x ∈ generator, pqReadTable x.1 = none) →
      ParquetBridge.mergeLoop ex table skipped generator
        = (table, skipped ++ generator.map (fun x => x.2)) := by
  induction generator with
  | nil => intro table skipped _; simp [ParquetBridge.mergeLoop]
  | cons hd tl ih =>
      intro table skipped hall
      obtain ⟨blob, file_id⟩ := hd
      unfold ParquetBridge.mergeLoop
      have hr : pqReadTable blob = none :=
        hall (blob, file_id) (List.mem_cons_self _ _)
      rw [hr]
      simp only []
      rw [ih _ _ (fun x hx => hall x (List.mem_cons_of_mem _ hx))]
      simp

theorem mergeLoop_fst_none_iff (ex : Externals) (generator : List (Blob × String)) :
    ∀ table skipped,
      (ParquetBridge.mergeLoop ex table skipped generator).1 = none
        ↔ (table = none ∧ ∀ x ∈ generator, pqReadTable x.1 = none) := by
  induction generator with
  | nil => intro table skipped; simp [ParquetBridge.mergeLoop]
  | cons hd tl ih =>
      intro table skipped
      obtain ⟨blob, file_id⟩ := hd
      unfold ParquetBridge.mergeLoop
      cases hr : pqReadTable blob with
      | none =>
          simp only []
          rw [ih]
          simp only [List.mem_cons]
          constructor
          · rintro ⟨ht, hall⟩
            refine ⟨ht, ?_⟩
            rintro x (rfl | hx)
            · exact hr
            · exact hall x hx
          · rintro ⟨ht, hall⟩
            exact ⟨ht, fun x hx => hall x (Or.inr hx)⟩
      | some cur =>
          have hcontra : ¬ (table = none ∧
              ∀ x ∈ (blob, file_id) :: tl, pqReadTable x.1 = none) := by
            rintro ⟨-, hall⟩
            have h1 : pqReadTable blob = none :=
              hall (blob, file_id) (List.mem_cons_self _ _)
            rw [hr] at h1
            exact Option.noConfusion h1
          simp only []
          by_cases ht : pyTableTruthy table = true
          · rw [if_pos ht]
            by_cases hco : ex.concatOk (table.getD []) cur = true
            · rw [if_pos hco]
              by_cases hso : ex.sortOk (table.getD [] ++ cur) = true
              · rw [if_pos hso, ih]
                constructor
                · rintro ⟨h0, -⟩; exact absurd h0 (by simp)
                · intro hR; exact absurd hR hcontra
              · rw [if_neg hso, ih]
                constructor
                · rintro ⟨h0, -⟩; exact absurd h0 (by simp)
                · intro hR; exact absurd hR hcontra
            · rw [if_neg hco, ih]
              constructor
              · rintro ⟨h0, -⟩
                rw [h0] at ht
                simp [pyTableTruthy] at ht
              · intro hR; exact absurd hR hcontra
          · rw [if_neg ht]
            by_cases hso : ex.sortOk cur = true
            · rw [if_pos hso, ih]
              constructor
              · rintro ⟨h0, -⟩; exact absurd h0 (by simp)
              · intro hR; exact absurd hR hcontra
            · rw [if_neg hso, ih]
              constructor
              · rintro ⟨h0, -⟩; exact absurd h0 (by simp)
              · intro hR; exact absurd hR hcontra

theorem mergeLoop_skipped_benign (ex : Externals)
    (hconcat : ∀ t1 t2, ex.concatOk t1 t2 = true)
    (hsort : ∀ t, ex.sortOk t = true)
    (generator : List (Blob × String)) :
    ∀ table skipped,
      (ParquetBridge.mergeLoop ex table skipped generator).2
        = skipped ++ readFailures generator := by
  induction generator with
  | nil => intro table skipped; simp [ParquetBridge.mergeLoop, readFailures]
  | cons hd tl ih =>
      intro table skipped
      obtain ⟨blob, file_id⟩ := hd
      unfold ParquetBridge.mergeLoop
      cases hr : pqReadTable blob with
      | none =>
          simp only []
          rw [ih]
          simp [readFailures, hr, List.append_assoc]
      | some cur =>
          simp only []
          by_cases ht : pyTableTruthy table = true
          · rw [if_pos ht, if_pos (hconcat _ _)]
            rw [if_pos (hsort _), ih]
            simp [readFailures, hr]
          · rw [if_neg ht, if_pos (hsort _), ih]
            simp [readFailures, hr]

theorem mergeLoop_fst_some_benign (ex : Externals)
    (hconcat : ∀ t1 t2, ex.concatOk t1 t2 = true)
    (hsort : ∀ t, ex.sortOk t = true)
    (generator : List (Blob × String)) :
    ∀ table skipped rows,
      (ParquetBridge.mergeLoop ex table skipped generator).1 = some rows →
      (∀ r, table = some r → r.Pairwise (fun a b => a.ts ≤ b.ts)) →
      rows.Perm (table.getD [] ++ successRows generator) ∧
        rows.Pairwise (fun a b => a.ts ≤ b.ts) := by
  induction generator with
  | nil =>
      intro table skipped rows hrows hsorted
      simp only [ParquetBridge.mergeLoop] at hrows
      subst hrows
      exact ⟨by simp [successRows], hsorted rows rfl⟩
  | cons hd tl ih =>
      intro table skipped rows hrows hsorted
      obtain ⟨blob, file_id⟩ := hd
      unfold ParquetBridge.mergeLoop at hrows
      cases hr : pqReadTable blob with
      | none =>
          rw [hr] at hrows
          simp only [] at hrows
          have h := ih table (skipped ++ [file_id]) rows hrows hsorted
          simpa [successRows, hr] using h
      | some cur =>
          rw [hr] at hrows
          simp only [] at hrows
          have hsucc : successRows ((blob, file_id) :: tl)
              = cur ++ successRows tl := by
            simp [successRows, hr]
          by_cases ht : pyTableTruthy table = true
          · rw [if_pos ht, if_pos (hconcat _ _)] at hrows
            rw [if_pos (hsort _)] at hrows
            have h := ih _ skipped rows hrows
              (by
                intro r hr2
                injection hr2 with h2
                rw [← h2]
                exact pySortAsc_pairwise _ _)
            refine ⟨?_, h.2⟩
            have hperm1 : rows.Perm
                (pySortAsc Row.ts (table.getD [] ++ cur) ++ successRows tl) := by
              simpa using h.1
            rw [hsucc, ← List.append_assoc]
            exact hperm1.trans ((pySortAsc_perm _ _).append_right _)
          · rw [if_neg ht] at hrows
            rw [if_pos (hsort _)] at hrows
            have h := ih _ skipped rows hrows
              (by
                intro r hr2
                injection hr2 with h2
                rw [← h2]
                exact pySortAsc_pairwise _ _)
            refine ⟨?_, h.2⟩
            have hperm1 : rows.Perm (pySortAsc Row.ts cur ++ successRows tl) := by
              simpa using h.1
            rw [hsucc, pyTableTruthy_false_getD ht]
            simp only [List.nil_append]
            exact hperm1.trans ((pySortAsc_perm _ _).append_right _)

/-- Claim C8 (counterexample): two readable single-row tables whose
`pa.concat_tables` raises (as it does on schema-mismatched tables — which
the system itself produces, since the broken schema cache re-infers a
schema per JSON payload).  The second input's read succeeds, yet its id is
appended to `skipped` and its rows are absent from the merged output,
falsifying both "skipped = exactly the read failures" and "the merged
output contains the rows of all successfully read tables". -/
theorem claim_C8_counterexample :
    pqReadTable (Blob.table [{ data := [2], ts := 2 }])
      = some [{ data := [2], ts := 2 }] ∧
    ParquetBridge.merge exConcatFails mergeGenTwoGood
      = .ok (some [{ data := [1], ts := 1 }], ["b"]) :=
  ⟨rfl, rfl⟩

/-- Claim C8 (amended): unconditionally, if no input read succeeds `merge`
returns `(none, all ids)`, and whenever it returns, the table is `none`
exactly when every read failed.  The remaining clauses hold only when the
pyarrow operations inside the per-input `try` and the final serialization
succeed (`pa.concat_tables`, `sort_by`, `pq.write_table`): then `skipped`
is exactly the ids whose parquet read fails, in arrival order, and the
merged table is a permutation of all successfully read rows sorted by
timestamp ascending.  Otherwise a successfully read input can be reported
skipped (concat or sort failure; a sort failure even leaves its rows in
the unsorted accumulated table), and `merge` itself can raise from
`_table_to_bytes`. -/
theorem claim_C8_merge (ex : Externals) (generator : List (Blob × String)) :
    ((∀ x ∈ generator, pqReadTable x.1 = none) →
      ParquetBridge.merge ex generator
        = .ok (none, generator.map (fun x => x.2))) ∧
    (∀ table skipped,
      ParquetBridge.merge ex generator = .ok (table, skipped) →
      (table = none ↔ ∀ x ∈ generator, pqReadTable x.1 = none)) ∧
    ((∀ t1 t2, ex.concatOk t1 t2 = true) → (∀ t, ex.sortOk t = true) →
      (∀ t, ex.tableToBytesOk t = true) →
      ∃ table skipped,
        ParquetBridge.merge ex generator = .ok (table, skipped) ∧
        skipped = readFailures generator ∧
        ∀ rows, table = some rows →
          rows.Perm (successRows generator) ∧
            rows.Pairwise (fun a b => a.ts ≤ b.ts)) := by
  refine ⟨?_, ?_, ?_⟩
  · intro hall
    unfold ParquetBridge.merge
    rw [mergeLoop_all_fail ex generator none [] hall]
    simp [pyTableTruthy]
  · intro table skipped hok
    have hpair : (table, skipped) = ParquetBridge.mergeLoop ex none [] generator := by
      unfold ParquetBridge.merge at hok
      simp only [] at hok
      by_cases ht : pyTableTruthy (ParquetBridge.mergeLoop ex none [] generator).1
          = true
      · rw [if_pos ht] at hok
        by_cases hb : ex.tableToBytesOk
            ((ParquetBridge.mergeLoop ex none [] generator).1.getD []) = true
        · rw [if_pos hb] at hok
          simp only [Except.ok.injEq] at hok
          rw [← hok]
        · rw [if_neg hb] at hok
          exact absurd hok (by simp)
      · rw [if_neg ht] at hok
        simp only [Except.ok.injEq] at hok
        rw [← hok]
    have h1 := mergeLoop_fst_none_iff ex generator none []
    rw [← hpair] at h1
    simpa using h1
  · intro hconcat hsort hbytes
    refine ⟨(ParquetBridge.mergeLoop ex none [] generator).1,
      (ParquetBridge.mergeLoop ex none [] generator).2, ?_, ?_, ?_⟩
    · unfold ParquetBridge.merge
      simp only []
      by_cases ht : pyTableTruthy (ParquetBridge.mergeLoop ex none [] generator).1
          = true
      · rw [if_pos ht, if_pos (hbytes _)]
      · rw [if_neg ht]
    · simpa using mergeLoop_skipped_benign ex hconcat hsort generator none []
    · intro rows hrows
      have h := mergeLoop_fst_some_benign ex hconcat hsort generator none []
        rows hrows (fun r hr => Option.noConfusion hr)
      simpa using h

/-- Claim C8 (witness): the amended theorem's benign clause applied to two
good single-row tables around one corrupt blob, with externals whose
pyarrow operations succeed. -/
theorem claim_C8_witness :
    ∃ table skipped,
      ParquetBridge.merge exBenign mergeGenExample = .ok (table, skipped) ∧
      skipped = readFailures mergeGenExample ∧
      ∀ rows, table = some rows →
        rows.Perm (successRows mergeGenExample) ∧
          rows.Pairwise (fun a b => a.ts ≤ b.ts) :=
  (claim_C8_merge exBenign mergeGenExample).2.2 (fun _ _ => rfl) (fun _ => rfl)
    (fun _ => rfl)

theorem get_collection_by_name_ok {cat : Catalog} {collection_name : String}
    {col : CollectionRec}
    (h : PersistenceManager.get_collection_by_name cat collection_name = .ok col) :
    cat.collections.filter (fun c => c.name = collection_name) = [col] := by
  unfold PersistenceManager.get_collection_by_name at h
  cases hf : cat.collections.filter (fun c => c.name = collection_name) with
  | nil => rw [hf] at h; exact absurd h (by simp)
  | cons c cs =>
      cases cs with
      | nil =>
          rw [hf] at h
          simp only [Except.ok.injEq] at h
          rw [h]
      | cons c2 cs2 => rw [hf] at h; exact absurd h (by simp)

theorem get_collection_by_name_of_filter {cat : Catalog} {collection_name : String}
    {col : CollectionRec}
    (h : cat.collections.filter (fun c => c.name = collection_name) = [col]) :
    PersistenceManager.get_collection_by_name cat collection_name = .ok col := by
  unfold PersistenceManager.get_collection_by_name
  rw [h]

theorem get_collection_by_name_absent {cat : Catalog} {collection_name : String}
    (h : cat.collections.filter (fun c => c.name = collection_name) = []) :
    PersistenceManager.get_collection_by_name cat collection_name
      = .error (.anotherWorld ("Collection " ++ collection_name ++ " does not exist")) := by
  unfold PersistenceManager.get_collection_by_name
  rw [h]

/-- Claim C2: after a successful `delete_collection`, any query on the
collection returns the empty list (the catalog row is gone, and the lookup
failure is forgiven), and no blob-store key under the collection's prefix
remains. -/
theorem claim_C2_delete_collection (s : EngineState) (collection_name : String)
    (s1 : EngineState)
    (hdel : Engine.delete_collection s collection_name = (.ok (), s1)) :
    (∀ mn mx asc limit offset skip,
      Engine.query s1 collection_name mn mx asc limit offset skip = .ok []) ∧
    (∀ kv ∈ s1.blobs, ¬ kv.1.1 = collection_name) := by
  unfold Engine.delete_collection at hdel
  cases hd : PersistenceManager.delete_collection s.catalog collection_name with
  | error e => rw [hd] at hdel; exact absurd hdel (by simp)
  | ok cat =>
      rw [hd] at hdel
      simp only [] at hdel
      have hs1 : s1 = { s with
          catalog := cat,
          blobs := IOManager.remove_collection s.blobs collection_name } := by
        have := (Prod.mk.injEq _ _ _ _).mp hdel
        exact this.2.symm
      unfold PersistenceManager.delete_collection at hd
      cases hl : PersistenceManager.get_collection_by_name s.catalog collection_name with
      | error e => rw [hl] at hd; exact absurd hd (by simp)
      | ok col =>
          rw [hl] at hd
          simp only [Except.ok.injEq] at hd
          have hfilter := get_collection_by_name_ok hl
          have hcols : cat.collections
              = s.catalog.collections.filter (fun c => ¬ c.id = col.id) := by
            rw [← hd]
          have hempty : cat.collections.filter
              (fun c => c.name = collection_name) = [] := by
            rw [hcols]
            rw [List.filter_filter]
            rw [List.filter_eq_nil_iff]
            intro a ha
            simp only [Bool.and_eq_true, decide_eq_true_eq]
            rintro ⟨hname, hid⟩
            have hmem : a ∈ s.catalog.collections.filter
                (fun c => c.name = collection_name) :=
              List.mem_filter.mpr ⟨ha, by simp [hname]⟩
            rw [hfilter] at hmem
            have : a = col := by simpa using hmem
            exact hid (by rw [this])
          constructor
          · intro mn mx asc limit offset skip
            unfold Engine.query
            rw [hs1]
            simp only []
            rw [get_collection_by_name_absent hempty]
          · intro kv hkv
            rw [hs1] at hkv
            simp only [IOManager.remove_collection] at hkv
            have := List.mem_filter.mp hkv
            simpa using this.2

/-- Claim C2 (witness): deleting collection `"a"` from a state with one
fragment, one buffer and two blobs empties the query result and the blob
namespace. -/
theorem claim_C2_witness :
    Engine.query stateDeleted "a" 0 10 true none none false = .ok [] ∧
    (∀ kv ∈ stateDeleted.blobs, ¬ kv.1.1 = "a") :=
  ⟨(claim_C2_delete_collection stateOneFragment "a" stateDeleted rfl).1
      0 10 true none none false,
   (claim_C2_delete_collection stateOneFragment "a" stateDeleted rfl).2⟩

theorem hashCache_find_none {hc : List (String × Option String)} {c : String}
    (h : hashCacheContains hc c = false) :
    hc.find? (fun kv => kv.1 = c) = none := by
  rw [List.find?_eq_none]
  intro kv hkv
  unfold hashCacheContains at h
  rw [List.any_eq_false] at h
  exact fun hp => absurd hp (by simpa using h kv hkv)

theorem hashCacheGet_set (hc : List (String × Option String)) (c : String)
    (v : Option String) : hashCacheGet (hashCacheSet hc c v) c = v := by
  unfold hashCacheSet
  by_cases hcont : hashCacheContains hc c = true
  · rw [if_pos hcont]
    unfold hashCacheGet
    induction hc with
    | nil => simp [hashCacheContains] at hcont
    | cons kv l ih =>
        by_cases hk : kv.1 = c
        · simp [hk]
        · have htail : hashCacheContains l c = true := by
            unfold hashCacheContains at hcont ⊢
            simpa [hk] using hcont
          simp only [List.map_cons, if_neg hk]
          rw [List.find?_cons_of_neg _ (by simpa using hk)]
          exact ih htail
  · rw [if_neg hcont]
    unfold hashCacheGet
    rw [List.find?_append, hashCache_find_none (by simpa using hcont)]
    simp

theorem hashCacheGet_some_contains {hc : List (String × Option String)}
    {c : String} {h : String} (hg : hashCacheGet hc c = some h) :
    hashCacheContains hc c = true := by
  unfold hashCacheGet at hg
  cases hf : hc.find? (fun kv => kv.1 = c) with
  | none => rw [hf] at hg; exact absurd hg (by simp)
  | some kv =>
      have hmem := List.mem_of_find?_eq_some hf
      have hp := List.find?_some hf
      unfold hashCacheContains
      rw [List.any_eq_true]
      exact ⟨kv, hmem, hp⟩

theorem flushLoop_preserves (ex : Externals) (col : CollectionRec) (cname : String)
    (groups : List (Nat × List (Blob × String))) :
    ∀ s : EngineState,
      (Engine.flushLoop ex col cname s groups).catalog.collections
          = s.catalog.collections ∧
        (Engine.flushLoop ex col cname s groups).hash_cache = s.hash_cache := by
  induction groups with
  | nil => intro s; exact ⟨rfl, rfl⟩
  | cons g rest ih =>
      intro s
      obtain ⟨ct, items⟩ := g
      unfold Engine.flushLoop
      simp only []
      split
      · exact ⟨(ih _).1, (ih _).2⟩
      · split
        · exact ⟨(ih _).1, (ih _).2⟩
        · exact ⟨(ih _).1, (ih _).2⟩

theorem flush_preserves (ex : Externals) (s : EngineState) (cname : String) :
    (Engine.flush ex s cname).2.catalog.collections = s.catalog.collections ∧
      (Engine.flush ex s cname).2.hash_cache = s.hash_cache := by
  unfold Engine.flush
  cases hl : PersistenceManager.get_collection_by_name s.catalog cname with
  | error e => exact ⟨rfl, rfl⟩
  | ok col =>
      simp only []
      split
      · exact ⟨rfl, rfl⟩
      · exact ⟨(flushLoop_preserves _ _ _ _ _).1, (flushLoop_preserves _ _ _ _ _).2⟩

theorem flush_preserves_pair {ex : Externals} {s s4 : EngineState} {cname : String}
    {r : Except Err Bool} (h : Engine.flush ex s cname = (r, s4)) :
    s4.catalog.collections = s.catalog.collections ∧
      s4.hash_cache = s.hash_cache := by
  have hp := flush_preserves ex s cname
  rw [h] at hp
  exact hp

theorem storeTail_preserves (ex : Externals) (s : EngineState)
    (col : CollectionRec) (cname : String) (ts : Int) (d : List Nat)
    (data_hash : String) (ct : Option ContentType) :
    (Engine.storeTail ex s col cname ts d data_hash ct).2.catalog.collections
        = s.catalog.collections ∧
      (Engine.storeTail ex s col cname ts d data_hash ct).2.hash_cache
        = s.hash_cache := by
  unfold Engine.storeTail
  split
  · exact ⟨rfl, rfl⟩
  · simp only []
    split
    · exact ⟨rfl, rfl⟩
    · split
      · split
        · rename_i heq
          have hp := flush_preserves_pair heq
          exact ⟨hp.1, hp.2⟩
        · rename_i heq
          have hp := flush_preserves_pair heq
          exact ⟨hp.1, hp.2⟩
      · exact ⟨rfl, rfl⟩

theorem get_collection_by_name_anotherWorld {cat : Catalog}
    {collection_name : String} {m : String}
    (h : PersistenceManager.get_collection_by_name cat collection_name
      = .error (.anotherWorld m)) :
    cat.collections.filter (fun c => c.name = collection_name) = [] := by
  unfold PersistenceManager.get_collection_by_name at h
  cases hf : cat.collections.filter (fun c => c.name = collection_name) with
  | nil => rfl
  | cons c cs =>
      cases cs with
      | nil => rw [hf] at h; exact absurd h (by simp)
      | cons c2 cs2 => rw [hf] at h; exact absurd h (by simp)

theorem check_collection_ok {s : EngineState} {cname : String} {create : Bool}
    {col : CollectionRec} {sA : EngineState}
    (h : Engine.check_collection s cname create = .ok (col, sA)) :
    sA.catalog.collections.filter (fun c => c.name = cname) = [col] ∧
      sA.hash_cache = s.hash_cache ∧ sA.blobs = s.blobs ∧
      sA.schema_cache = s.schema_cache := by
  unfold Engine.check_collection at h
  cases hl : PersistenceManager.get_collection_by_name s.catalog cname with
  | ok c =>
      rw [hl] at h
      simp only [Except.ok.injEq, Prod.mk.injEq] at h
      obtain ⟨hcol, hsA⟩ := h
      rw [← hsA, ← hcol]
      exact ⟨get_collection_by_name_ok hl, rfl, rfl, rfl⟩
  | error e =>
      rw [hl] at h
      cases e with
      | anotherWorld m =>
          simp only [] at h
          cases create with
          | false => exact absurd h (by simp)
          | true =>
              have hnil := get_collection_by_name_anotherWorld hl
              have hany : s.catalog.collections.any (fun c => c.name = cname)
                  = false := by
                rw [List.any_eq_false]
                intro c hc hp
                have : c ∈ s.catalog.collections.filter
                    (fun c => c.name = cname) :=
                  List.mem_filter.mpr ⟨hc, by simpa using hp⟩
                rw [hnil] at this
                exact absurd this (List.not_mem_nil c)
              unfold Engine.create_collection
                PersistenceManager.create_collection at h
              rw [hany] at h
              simp only [Bool.false_eq_true, if_false, if_true] at h
              simp only [Except.ok.injEq, Prod.mk.injEq] at h
              obtain ⟨hcol, hsA⟩ := h
              rw [← hsA, ← hcol]
              refine ⟨?_, rfl, rfl, rfl⟩
              rw [List.filter_append]
              rw [List.filter_eq_nil_iff.mpr ?side]
              case side =>
                intro c hc hp
                have : c ∈ s.catalog.collections.filter
                    (fun c => c.name = cname) :=
                  List.mem_filter.mpr ⟨hc, hp⟩
                rw [hnil] at this
                exact absurd this (List.not_mem_nil c)
              simp
      | valueError => exact absurd h (by simp)
      | keyError => exact absurd h (by simp)
      | multipleResults => exact absurd h (by simp)
      | ioError => exact absurd h (by simp)
      | attributeError => exact absurd h (by simp)
      | fuelExhausted => exact absurd h (by simp)

theorem store_ok_inv {ex : Externals} {s : EngineState} {cname : String}
    {ts : Int} {d : List Nat} {ct : Option ContentType} {cr : Bool}
    {s1 : EngineState}
    (h : Engine.store ex s cname ts d ct cr = (.ok (), s1)) :
    ∃ col, s1.catalog.collections.filter (fun c => c.name = cname) = [col] ∧
      hashCacheGet s1.hash_cache cname = some (ex.md5 d) := by
  unfold Engine.store at h
  cases hchk : Engine.check_collection s cname cr with
  | error e => rw [hchk] at h; exact absurd h (by simp)
  | ok p =>
      obtain ⟨col, sA⟩ := p
      rw [hchk] at h
      simp only [] at h
      obtain ⟨hfilter, -, -, -⟩ := check_collection_ok hchk
      by_cases hcont : hashCacheContains sA.hash_cache cname = true
      · rw [if_pos hcont] at h
        by_cases hded : hashCacheGet sA.hash_cache cname = some (ex.md5 d)
        · rw [if_pos hded] at h
          have hs1 : sA = s1 := ((Prod.mk.injEq _ _ _ _).mp h).2
          exact ⟨col, by rw [← hs1]; exact hfilter, by rw [← hs1]; exact hded⟩
        · rw [if_neg hded] at h
          have hpres := storeTail_preserves ex { sA with hash_cache := hashCacheSet sA.hash_cache cname (some (ex.md5 d)) } col cname ts d (ex.md5 d) ct
          rw [h] at hpres
          refine ⟨col, ?_, ?_⟩
          · rw [hpres.1]; exact hfilter
          · rw [hpres.2]; exact hashCacheGet_set _ _ _
      · rw [if_neg hcont] at h
        by_cases hded : hashCacheGet
            (hashCacheSet sA.hash_cache cname
              (PersistenceManager.get_last_hash sA.catalog cname)) cname
            = some (ex.md5 d)
        · rw [if_pos hded] at h
          have hs1 : ({ sA with hash_cache := hashCacheSet sA.hash_cache cname (PersistenceManager.get_last_hash sA.catalog cname) } : EngineState) = s1 :=
            ((Prod.mk.injEq _ _ _ _).mp h).2
          refine ⟨col, ?_, ?_⟩
          · rw [← hs1]; exact hfilter
          · rw [← hs1]; exact hded
        · rw [if_neg hded] at h
          have hpres := storeTail_preserves ex { sA with hash_cache := hashCacheSet (hashCacheSet sA.hash_cache cname (PersistenceManager.get_last_hash sA.catalog cname)) cname (some (ex.md5 d)) } col cname ts d (ex.md5 d) ct
          rw [h] at hpres
          refine ⟨col, ?_, ?_⟩
          · rw [hpres.1]; exact hfilter
          · rw [hpres.2]; exact hashCacheGet_set _ _ _

theorem store_dropped {ex : Externals} {s : EngineState} {cname : String}
    {ts : Int} {d : List Nat} {ct : Option ContentType} {cr : Bool}
    {col : CollectionRec}
    (hl : PersistenceManager.get_collection_by_name s.catalog cname = .ok col)
    (hget : hashCacheGet s.hash_cache cname = some (ex.md5 d)) :
    Engine.store ex s cname ts d ct cr = (.ok (), s) := by
  unfold Engine.store Engine.check_collection
  rw [hl]
  simp only []
  rw [if_pos (hashCacheGet_some_contains hget), if_pos hget]

/-- Claim C9: after any successful `store(c, ts1, d, t)`, an immediately
following `store(c, ts2, d, t)` with byte-identical payload is a no-op: it
returns successfully without logging a buffer, writing a blob, or changing
any engine state (the dedup cache already holds `md5(d)`). -/
theorem claim_C9_dedup (ex : Externals) (s : EngineState)
    (collection_name : String) (ts1 ts2 : Int) (data : List Nat)
    (content_type : Option ContentType) (create1 create2 : Bool)
    (s1 : EngineState)
    (hfirst : Engine.store ex s collection_name ts1 data content_type create1
      = (.ok (), s1)) :
    Engine.store ex s1 collection_name ts2 data content_type create2
      = (.ok (), s1) := by
  obtain ⟨col, hfilter, hget⟩ := store_ok_inv hfirst
  exact store_dropped (get_collection_by_name_of_filter hfilter) hget

/-- Claim C9 (witness): storing `[7]` into a fresh collection and then
storing the same bytes again leaves the post-first-store state untouched. -/
theorem claim_C9_witness :
    Engine.store exBenign stateAfterStore "a" 2 [7] (some .raw) false
      = (.ok (), stateAfterStore) :=
  claim_C9_dedup exBenign stateEmptyCollection "a" 1 2 [7] (some .raw)
    false false stateAfterStore rfl

theorem write_single_write_fails (ex : Externals) (cache : SchemaCache)
    (bytes_data : List Nat) (timestamp : Int) (collection_name : String)
    (content_type : Option ContentType) (fuel : Nat)
    (hbuild : ∀ schema rep, ex.fromPydictOk schema rep = true)
    (hwrite : ex.writeOk = false)
    (hlines : ∀ schema, ex.schemaLines schema ≤ 100)
    (hcache : pyDictContains cache (.str collection_name) = false) :
    ∃ cache1,
      ParquetBridge.write_single ex (fuel + 1) cache bytes_data timestamp
        collection_name content_type
        = (.error (.anotherWorld "Error while writing parquet file"), cache1) := by
  obtain ⟨r, ct, hpd⟩ :=
    parse_data_ok ex bytes_data (content_type.getD ContentType.raw)
  have hinfer : ParquetBridge.infer_schema ex cache r collection_name ct
      = .ok (ex.inferType r, false,
          pyDictInsert cache (.pair collection_name ct) (ex.inferType r)) := by
    unfold ParquetBridge.infer_schema
    rw [hcache]
    simp only [Bool.false_eq_true, if_false]
    rw [if_neg (by exact Nat.not_lt.mpr (hlines _))]
  rw [ParquetBridge.write_single, hpd]
  simp only [hinfer, hbuild, hwrite, if_true, Bool.false_eq_true, if_false]
  exact ⟨_, rfl⟩

theorem storeTail_write_fails (ex : Externals) (s : EngineState)
    (col : CollectionRec) (cname : String) (ts : Int) (d : List Nat)
    (data_hash : String) (ct : Option ContentType)
    (hbuild : ∀ schema rep, ex.fromPydictOk schema rep = true)
    (hwrite : ex.writeOk = false)
    (hlines : ∀ schema, ex.schemaLines schema ≤ 100)
    (hcache : pyDictContains s.schema_cache (.str cname) = false) :
    ∃ s1, Engine.storeTail ex s col cname ts d data_hash ct
        = (.error (.anotherWorld "Error while writing parquet file"), s1) ∧
      s1.catalog = s.catalog ∧ s1.blobs = s.blobs ∧
      s1.hash_cache = s.hash_cache := by
  obtain ⟨cache1, hws⟩ := write_single_write_fails ex s.schema_cache d ts cname
    ct 3 hbuild hwrite hlines hcache
  unfold Engine.storeTail
  have hfd : writeSingleFuel = 3 + 1 := rfl
  rw [hfd, hws]
  exact ⟨_, rfl, rfl, rfl, rfl⟩

/-- Claim C10: a `store` that passes the dedup check but then fails inside
the bridge write has already poisoned the in-memory dedup cache with
`md5(data)`; the catalog and blob store are untouched (no buffered
fragment was persisted), yet an immediately retried `store` of the same
bytes is silently dropped as a duplicate. -/
theorem claim_C10_failed_store_poisons_dedup (ex : Externals)
    (s sA : EngineState) (col : CollectionRec) (collection_name : String)
    (ts ts2 : Int) (data : List Nat) (content_type : Option ContentType)
    (create create2 : Bool)
    (hchk : Engine.check_collection s collection_name create = .ok (col, sA))
    (hnodup1 : ¬ PersistenceManager.get_last_hash sA.catalog collection_name
      = some (ex.md5 data))
    (hnodup2 : ¬ hashCacheGet sA.hash_cache collection_name
      = some (ex.md5 data))
    (hbuild : ∀ schema rep, ex.fromPydictOk schema rep = true)
    (hwrite : ex.writeOk = false)
    (hlines : ∀ schema, ex.schemaLines schema ≤ 100)
    (hcache : pyDictContains sA.schema_cache (.str collection_name) = false) :
    ∃ s1, Engine.store ex s collection_name ts data content_type create
        = (.error (.anotherWorld "Error while writing parquet file"), s1) ∧
      s1.catalog = sA.catalog ∧ s1.blobs = sA.blobs ∧
      hashCacheGet s1.hash_cache collection_name = some (ex.md5 data) ∧
      Engine.store ex s1 collection_name ts2 data content_type create2
        = (.ok (), s1) := by
  obtain ⟨hfilter, -, -, -⟩ := check_collection_ok hchk
  unfold Engine.store
  rw [hchk]
  simp only []
  by_cases hcont : hashCacheContains sA.hash_cache collection_name = true
  · rw [if_pos hcont, if_neg hnodup2]
    obtain ⟨s1, hst, hcat, hblob, hhc⟩ :=
      storeTail_write_fails ex { sA with hash_cache := hashCacheSet sA.hash_cache collection_name (some (ex.md5 data)) } col collection_name ts data (ex.md5 data) content_type hbuild hwrite hlines hcache
    have hlook : PersistenceManager.get_collection_by_name s1.catalog collection_name = .ok col := by
      rw [hcat]; exact get_collection_by_name_of_filter hfilter
    have hget2 : hashCacheGet s1.hash_cache collection_name = some (ex.md5 data) := by
      rw [hhc]; exact hashCacheGet_set _ _ _
    exact ⟨s1, hst, hcat, hblob, hget2, store_dropped hlook hget2⟩
  · rw [if_neg hcont]
    have hded : ¬ hashCacheGet (hashCacheSet sA.hash_cache collection_name (PersistenceManager.get_last_hash sA.catalog collection_name)) collection_name = some (ex.md5 data) := by
      rw [hashCacheGet_set]
      exact hnodup1
    rw [if_neg hded]
    obtain ⟨s1, hst, hcat, hblob, hhc⟩ :=
      storeTail_write_fails ex { sA with hash_cache := hashCacheSet (hashCacheSet sA.hash_cache collection_name (PersistenceManager.get_last_hash sA.catalog collection_name)) collection_name (some (ex.md5 data)) } col collection_name ts data (ex.md5 data) content_type hbuild hwrite hlines hcache
    have hlook : PersistenceManager.get_collection_by_name s1.catalog collection_name = .ok col := by
      rw [hcat]; exact get_collection_by_name_of_filter hfilter
    have hget2 : hashCacheGet s1.hash_cache collection_name = some (ex.md5 data) := by
      rw [hhc]; exact hashCacheGet_set _ _ _
    exact ⟨s1, hst, hcat, hblob, hget2, store_dropped hlook hget2⟩

/-- Claim C10 (witness): with a failing parquet write, storing `[7]` into a
fresh collection errors but poisons the dedup cache, and the immediate
retry is silently dropped. -/
theorem claim_C10_witness :
    ∃ s1, Engine.store exWriteFails stateEmptyCollection "a" 1 [7]
        (some .raw) false
        = (.error (.anotherWorld "Error while writing parquet file"), s1) ∧
      s1.catalog = stateEmptyCollection.catalog ∧
      s1.blobs = stateEmptyCollection.blobs ∧
      hashCacheGet s1.hash_cache "a" = some (exWriteFails.md5 [7]) ∧
      Engine.store exWriteFails s1 "a" 2 [7] (some .raw) false
        = (.ok (), s1) :=
  claim_C10_failed_store_poisons_dedup exWriteFails stateEmptyCollection
    stateEmptyCollection { id := 1, name := "a" } "a" 1 2 [7] (some .raw)
    false false rfl (by decide) (by decide) (fun _ _ => rfl) rfl
    (fun _ => (by decide : (1 : Nat) ≤ 100)) rfl

theorem mem_pySortAsc {α : Type} {key : α → Int} {x : α} {l : List α} :
    x ∈ pySortAsc key l ↔ x ∈ l :=
  (pySortAsc_perm key l).mem_iff

theorem mem_pySortDesc {α : Type} {key : α → Int} {x : α} {l : List α} :
    x ∈ pySortDesc key l ↔ x ∈ l :=
  (pySortDesc_perm key l).mem_iff

theorem read_ok_range {blob : Blob} {content_type : Option Nat} {mn mx : Int}
    {asc : Bool} {limit : Option Nat} {rows : List Row}
    (h : ParquetBridge.read blob content_type mn mx asc limit = .ok rows) :
    ∀ r ∈ rows, mn ≤ r.ts ∧ r.ts ≤ mx := by
  unfold ParquetBridge.read at h
  cases hov : content_type.bind ContentType.ofValue with
  | none => rw [hov] at h; exact absurd h (by simp)
  | some ctv =>
      rw [hov] at h
      cases blob with
      | corrupt => exact absurd h (by simp)
      | table rows0 =>
          simp only [Except.ok.injEq] at h
          intro r hr
          rw [← h] at hr
          have hbase : r ∈ (if asc
              then pySortAsc Row.ts (rows0.filter (fun r => mn ≤ r.ts ∧ r.ts ≤ mx))
              else pySortDesc Row.ts (rows0.filter (fun r => mn ≤ r.ts ∧ r.ts ≤ mx))) := by
            by_cases hlim : pyTruthy limit = true
            · rw [if_pos hlim] at hr
              exact List.mem_of_mem_take hr
            · rw [if_neg hlim] at hr
              exact hr
          have hfil : r ∈ rows0.filter (fun r => mn ≤ r.ts ∧ r.ts ≤ mx) := by
            by_cases hasc : asc = true
            · rw [if_pos hasc] at hbase
              exact mem_pySortAsc.mp hbase
            · rw [if_neg hasc] at hbase
              exact mem_pySortDesc.mp hbase
          have := (List.mem_filter.mp hfil).2
          simpa using this

theorem collectRows_ok_range {bs : BlobStore} {cname : String} {mn mx : Int}
    {asc : Bool} {limit : Option Nat} :
    ∀ {srcs : List (String × Option Nat)} {L : List (Option (List Nat) × Int)},
      Engine.collectRows bs cname mn mx asc limit srcs = .ok L →
      ∀ x ∈ L, mn ≤ x.2 ∧ x.2 ≤ mx := by
  intro srcs
  induction srcs with
  | nil =>
      intro L h x hx
      simp only [Engine.collectRows, Except.ok.injEq] at h
      rw [← h] at hx
      exact absurd hx (List.not_mem_nil x)
  | cons src rest ih =>
      intro L h x hx
      obtain ⟨uuid, ct⟩ := src
      unfold Engine.collectRows at h
      cases hb : BlobStore.read bs cname uuid with
      | none => rw [hb] at h; exact absurd h (by simp)
      | some blob =>
          rw [hb] at h
          simp only [] at h
          cases hrd : ParquetBridge.read blob ct mn mx asc limit with
          | error e => rw [hrd] at h; exact absurd h (by simp)
          | ok rows =>
              rw [hrd] at h
              simp only [] at h
              cases hrec : Engine.collectRows bs cname mn mx asc limit rest with
              | error e => rw [hrec] at h; exact absurd h (by simp)
              | ok tail =>
                  rw [hrec] at h
                  simp only [Except.ok.injEq] at h
                  rw [← h] at hx
                  rcases List.mem_append.mp hx with hx1 | hx2
                  · obtain ⟨r, hrmem, hreq⟩ := List.mem_map.mp hx1
                    have hrange := read_ok_range hrd r hrmem
                    rw [← hreq]
                    exact hrange
                  · exact ih hrec x hx2

theorem querySkipData_sorted_asc (cat : Catalog) (frs : List FragmentRec)
    (bufs : List BufferedFragmentRec) (mn mx : Int) :
    (Engine.querySkipData cat frs bufs mn mx true).Pairwise
      (fun a b => a.2 ≤ b.2) := by
  unfold Engine.querySkipData
  rw [if_pos rfl]
  exact pySortAsc_pairwise _ _

theorem querySkipData_sorted_desc (cat : Catalog) (frs : List FragmentRec)
    (bufs : List BufferedFragmentRec) (mn mx : Int) :
    (Engine.querySkipData cat frs bufs mn mx false).Pairwise
      (fun a b => b.2 ≤ a.2) := by
  unfold Engine.querySkipData
  rw [if_neg (by simp)]
  exact pySortDesc_pairwise _ _

theorem querySkipData_range {cat : Catalog} {frs : List FragmentRec}
    {bufs : List BufferedFragmentRec} {mn mx : Int} {asc : Bool}
    {x : Option (List Nat) × Int}
    (hx : x ∈ Engine.querySkipData cat frs bufs mn mx asc) :
    mn ≤ x.2 ∧ x.2 ≤ mx := by
  unfold Engine.querySkipData at hx
  have hx2 : x ∈ (((PersistenceManager.get_items_from_fragments cat frs).map
      (fun i => i.timestamp) ++ bufs.map (fun b => b.timestamp)).filter
        (fun ts => mn ≤ ts ∧ ts ≤ mx)).map
        (fun ts => ((none : Option (List Nat)), ts)) := by
    by_cases hasc : asc = true
    · rw [if_pos hasc] at hx
      exact mem_pySortAsc.mp hx
    · rw [if_neg hasc] at hx
      exact mem_pySortDesc.mp hx
  obtain ⟨ts, hts, heq⟩ := List.mem_map.mp hx2
  have := (List.mem_filter.mp hts).2
  rw [← heq]
  simpa using this

theorem mem_collectSlice {L : List (Option (List Nat) × Int)} {asc : Bool}
    {limit offset : Option Nat} {x : Option (List Nat) × Int}
    (hx : x ∈ Engine.collectSlice L asc limit offset) : x ∈ L := by
  unfold Engine.collectSlice at hx
  have hao : x ∈ (if pyTruthy offset
      then (if asc then pySortAsc (fun x => x.2) L
        else pySortDesc (fun x => x.2) L).drop (offset.getD 0)
      else (if asc then pySortAsc (fun x => x.2) L
        else pySortDesc (fun x => x.2) L)) := by
    by_cases hlim : pyTruthy limit = true
    · rw [if_pos hlim] at hx
      exact List.mem_of_mem_take hx
    · rw [if_neg hlim] at hx
      exact hx
  have hsorted : x ∈ (if asc then pySortAsc (fun x => x.2) L
      else pySortDesc (fun x => x.2) L) := by
    by_cases hoff : pyTruthy offset = true
    · rw [if_pos hoff] at hao
      exact List.mem_of_mem_drop hao
    · rw [if_neg hoff] at hao
      exact hao
  by_cases hasc : asc = true
  · rw [if_pos hasc] at hsorted
    exact mem_pySortAsc.mp hsorted
  · rw [if_neg hasc] at hsorted
    exact mem_pySortDesc.mp hsorted

theorem collectSlice_sorted_asc (L : List (Option (List Nat) × Int))
    (limit offset : Option Nat) :
    (Engine.collectSlice L true limit offset).Pairwise (fun a b => a.2 ≤ b.2) := by
  unfold Engine.collectSlice
  rw [if_pos rfl]
  have hs := pySortAsc_pairwise (fun x : Option (List Nat) × Int => x.2) L
  have hao : ((if pyTruthy offset
      then (pySortAsc (fun x => x.2) L).drop (offset.getD 0)
      else pySortAsc (fun x => x.2) L) : List (Option (List Nat) × Int)).Pairwise
        (fun a b => a.2 ≤ b.2) := by
    by_cases hoff : pyTruthy offset = true
    · rw [if_pos hoff]
      exact hs.sublist (List.drop_sublist _ _)
    · rw [if_neg hoff]
      exact hs
  by_cases hlim : pyTruthy limit = true
  · rw [if_pos hlim]
    exact hao.sublist (List.take_sublist _ _)
  · rw [if_neg hlim]
    exact hao

theorem collectSlice_sorted_desc (L : List (Option (List Nat) × Int))
    (limit offset : Option Nat) :
    (Engine.collectSlice L false limit offset).Pairwise (fun a b => b.2 ≤ a.2) := by
  unfold Engine.collectSlice
  simp only [Bool.false_eq_true, if_false]
  have hs := pySortDesc_pairwise (fun x : Option (List Nat) × Int => x.2) L
  have hao : ((if pyTruthy offset
      then (pySortDesc (fun x => x.2) L).drop (offset.getD 0)
      else pySortDesc (fun x => x.2) L) : List (Option (List Nat) × Int)).Pairwise
        (fun a b => b.2 ≤ a.2) := by
    by_cases hoff : pyTruthy offset = true
    · rw [if_pos hoff]
      exact hs.sublist (List.drop_sublist _ _)
    · rw [if_neg hoff]
      exact hs
  by_cases hlim : pyTruthy limit = true
  · rw [if_pos hlim]
    exact hao.sublist (List.take_sublist _ _)
  · rw [if_neg hlim]
    exact hao

theorem collectSlice_length (L : List (Option (List Nat) × Int)) (asc : Bool)
    (l : Nat) (offset : Option Nat) (hl : l ≠ 0) :
    (Engine.collectSlice L asc (some l) offset).length ≤ l := by
  unfold Engine.collectSlice
  rw [if_pos (by simp [pyTruthy, hl])]
  exact List.length_take_le _ _

theorem collectSlice_offset_beyond (L : List (Option (List Nat) × Int))
    (asc : Bool) (limit : Option Nat) (o : Nat) (ho : L.length ≤ o) :
    Engine.collectSlice L asc limit (some o) = [] := by
  unfold Engine.collectSlice
  have hlen : (if asc then pySortAsc (fun x : Option (List Nat) × Int => x.2) L
      else pySortDesc (fun x : Option (List Nat) × Int => x.2) L).length
        = L.length := by
    by_cases hasc : asc = true
    · rw [if_pos hasc]; exact (pySortAsc_perm _ _).length_eq
    · rw [if_neg hasc]; exact (pySortDesc_perm _ _).length_eq
  by_cases hoff : pyTruthy (some o) = true
  · have hdrop : (if asc then pySortAsc (fun x : Option (List Nat) × Int => x.2) L
        else pySortDesc (fun x : Option (List Nat) × Int => x.2) L).drop
          ((some o : Option Nat).getD 0) = [] := by
      apply List.drop_eq_nil_of_le
      rw [hlen]
      simpa using ho
    simp only [hoff, if_true, hdrop]
    by_cases hlim : pyTruthy limit = true
    · simp [hlim]
    · simp [hlim]
  · have ho0 : o = 0 := by
      simp only [pyTruthy, decide_eq_true_eq, Decidable.not_not] at hoff
      exact hoff
    have hLnil : L = [] := by
      rw [ho0] at ho
      exact List.eq_nil_of_length_eq_zero (Nat.le_zero.mp ho)
    have hnil : (if asc then pySortAsc (fun x : Option (List Nat) × Int => x.2) ([] : List (Option (List Nat) × Int))
        else pySortDesc (fun x : Option (List Nat) × Int => x.2) []) = [] := by
      by_cases hasc : asc = true
      · rw [if_pos hasc]; rfl
      · rw [if_neg hasc]; rfl
    simp only [hLnil, hnil]
    simp only [hoff, if_false]
    by_cases hlim : pyTruthy limit = true
    · simp [hlim]
    · simp [hlim]

theorem mem_querySkipSlice {s : EngineState} {col : CollectionRec}
    {mn mx : Int} {asc : Bool} {limit offset : Option Nat}
    {x : Option (List Nat) × Int}
    (hx : x ∈ Engine.querySkipSlice s col mn mx asc limit offset) :
    x ∈ Engine.querySkipData s.catalog
      (PersistenceManager.query s.catalog col mn mx asc limit none)
      (PersistenceManager.query_buffers_do_not_lock s.catalog col mn mx asc limit)
      mn mx asc := by
  unfold Engine.querySkipSlice at hx
  by_cases hlim : pyTruthy limit = true
  · rw [if_pos hlim] at hx
    exact List.mem_of_mem_take (List.mem_of_mem_drop hx)
  · rw [if_neg hlim] at hx
    exact List.mem_of_mem_drop hx

theorem querySkipSlice_sorted_asc (s : EngineState) (col : CollectionRec)
    (mn mx : Int) (limit offset : Option Nat) :
    (Engine.querySkipSlice s col mn mx true limit offset).Pairwise
      (fun a b => a.2 ≤ b.2) := by
  unfold Engine.querySkipSlice
  have hs := querySkipData_sorted_asc s.catalog
    (PersistenceManager.query s.catalog col mn mx true limit none)
    (PersistenceManager.query_buffers_do_not_lock s.catalog col mn mx true limit)
    mn mx
  by_cases hlim : pyTruthy limit = true
  · rw [if_pos hlim]
    exact (hs.sublist (List.take_sublist _ _)).sublist (List.drop_sublist _ _)
  · rw [if_neg hlim]
    exact hs.sublist (List.drop_sublist _ _)

theorem querySkipSlice_sorted_desc (s : EngineState) (col : CollectionRec)
    (mn mx : Int) (limit offset : Option Nat) :
    (Engine.querySkipSlice s col mn mx false limit offset).Pairwise
      (fun a b => b.2 ≤ a.2) := by
  unfold Engine.querySkipSlice
  have hs := querySkipData_sorted_desc s.catalog
    (PersistenceManager.query s.catalog col mn mx false limit none)
    (PersistenceManager.query_buffers_do_not_lock s.catalog col mn mx false limit)
    mn mx
  by_cases hlim : pyTruthy limit = true
  · rw [if_pos hlim]
    exact (hs.sublist (List.take_sublist _ _)).sublist (List.drop_sublist _ _)
  · rw [if_neg hlim]
    exact hs.sublist (List.drop_sublist _ _)

theorem querySkipSlice_length (s : EngineState) (col : CollectionRec)
    (mn mx : Int) (asc : Bool) (l : Nat) (offset : Option Nat) (hl : l ≠ 0) :
    (Engine.querySkipSlice s col mn mx asc (some l) offset).length ≤ l := by
  unfold Engine.querySkipSlice
  rw [if_pos (by simp [pyTruthy, hl])]
  rw [List.length_drop, List.length_take]
  simp only [Option.getD_some]
  omega

theorem querySkipSlice_offset_beyond (s : EngineState) (col : CollectionRec)
    (mn mx : Int) (asc : Bool) (limit : Option Nat) (o : Nat)
    (ho : (Engine.querySkipData s.catalog
      (PersistenceManager.query s.catalog col mn mx asc limit none)
      (PersistenceManager.query_buffers_do_not_lock s.catalog col mn mx asc limit)
      mn mx asc).length ≤ o) :
    Engine.querySkipSlice s col mn mx asc limit (some o) = [] := by
  unfold Engine.querySkipSlice
  by_cases hlim : pyTruthy limit = true
  · rw [if_pos hlim]
    apply List.drop_eq_nil_of_le
    rw [List.length_take]
    simp only [Option.getD_some]
    omega
  · rw [if_neg hlim]
    apply List.drop_eq_nil_of_le
    simpa using ho

/-- Claim C1 (amended): whenever `Engine.query` returns a result list (in
either `skip_data` mode), the list is sorted by timestamp per `ascending`,
every returned timestamp lies in `[min, max]`, and for a *positive* limit
the length is at most `limit`; an `offset` at or beyond the number of
collected rows yields `[]`.  However `limit = 0` is falsy in the final
truncation (so it does not force `[]`), and the result is exactly the
slice the code computes: with `skip_data` the Python slice
`data[offset:limit]` (absolute end index), otherwise the globally sorted
collected rows (with per-source `limit` pushdown already applied) sliced
by `drop offset` then `take limit` — not in general the `offset`-based
sub-list of the full ordered result. -/
theorem claim_C1_query (s : EngineState) (collection_name : String)
    (mn mx : Int) (asc : Bool) (limit offset : Option Nat) (skip : Bool)
    (res : List (Option (List Nat) × Int))
    (h : Engine.query s collection_name mn mx asc limit offset skip = .ok res) :
    (asc = true → res.Pairwise (fun a b => a.2 ≤ b.2)) ∧
    (asc = false → res.Pairwise (fun a b => b.2 ≤ a.2)) ∧
    (∀ x ∈ res, mn ≤ x.2 ∧ x.2 ≤ mx) ∧
    (∀ l, limit = some l → 0 < l → res.length ≤ l) ∧
    (∀ col, PersistenceManager.get_collection_by_name s.catalog collection_name
        = .ok col →
      (skip = true →
        res = Engine.querySkipSlice s col mn mx asc limit offset ∧
        (∀ o, offset = some o →
          (Engine.querySkipData s.catalog
            (PersistenceManager.query s.catalog col mn mx asc limit none)
            (PersistenceManager.query_buffers_do_not_lock s.catalog col mn mx
              asc limit) mn mx asc).length ≤ o → res = [])) ∧
      (skip = false → ∀ L,
        Engine.collectRows s.blobs collection_name mn mx asc limit
          (Engine.query_sources
            (PersistenceManager.query s.catalog col mn mx asc limit none)
            (PersistenceManager.query_buffers_do_not_lock s.catalog col mn mx
              asc limit)) = .ok L →
        res = Engine.collectSlice L asc limit offset ∧
        (∀ o, offset = some o → L.length ≤ o → res = []))) := by
  unfold Engine.query at h
  cases hl : PersistenceManager.get_collection_by_name s.catalog collection_name with
  | error e =>
      rw [hl] at h
      cases e with
      | anotherWorld m =>
          simp only [Except.ok.injEq] at h
          subst h
          refine ⟨fun _ => List.Pairwise.nil, fun _ => List.Pairwise.nil,
            ?_, ?_, ?_⟩
          · intro x hx; exact absurd hx (List.not_mem_nil x)
          · intro l _ _; simp
          · intro col hcol
            exact absurd hcol (by simp)
      | valueError => exact absurd h (by simp)
      | keyError => exact absurd h (by simp)
      | multipleResults => exact absurd h (by simp)
      | ioError => exact absurd h (by simp)
      | attributeError => exact absurd h (by simp)
      | fuelExhausted => exact absurd h (by simp)
  | ok col0 =>
      rw [hl] at h
      simp only [] at h
      cases skip with
      | true =>
          rw [if_pos rfl] at h
          simp only [Except.ok.injEq] at h
          have hres : res = Engine.querySkipSlice s col0 mn mx asc limit offset :=
            h.symm
          refine ⟨?_, ?_, ?_, ?_, ?_⟩
          · intro hasc; subst hasc; rw [hres]
            exact querySkipSlice_sorted_asc s col0 mn mx limit offset
          · intro hasc; subst hasc; rw [hres]
            exact querySkipSlice_sorted_desc s col0 mn mx limit offset
          · intro x hx
            rw [hres] at hx
            exact querySkipData_range (mem_querySkipSlice hx)
          · intro l hleq hpos
            subst hleq
            rw [hres]
            exact querySkipSlice_length s col0 mn mx asc l offset
              (Nat.pos_iff_ne_zero.mp hpos)
          · intro col hcol
            have hcol0 : col = col0 := (((Except.ok.injEq _ _).mp hcol)).symm
            subst hcol0
            refine ⟨?_, fun hskip => absurd hskip (by simp)⟩
            intro _
            refine ⟨hres, ?_⟩
            intro o hoeq hbeyond
            subst hoeq
            rw [hres]
            exact querySkipSlice_offset_beyond s col mn mx asc limit o hbeyond
      | false =>
          rw [if_neg (by simp)] at h
          cases hc : Engine.collectRows s.blobs collection_name mn mx asc limit
              (Engine.query_sources
                (PersistenceManager.query s.catalog col0 mn mx asc limit none)
                (PersistenceManager.query_buffers_do_not_lock s.catalog col0 mn
                  mx asc limit)) with
          | error e => rw [hc] at h; exact absurd h (by simp)
          | ok L =>
              rw [hc] at h
              simp only [Except.ok.injEq] at h
              have hres : res = Engine.collectSlice L asc limit offset := h.symm
              refine ⟨?_, ?_, ?_, ?_, ?_⟩
              · intro hasc; subst hasc; rw [hres]
                exact collectSlice_sorted_asc L limit offset
              · intro hasc; subst hasc; rw [hres]
                exact collectSlice_sorted_desc L limit offset
              · intro x hx
                rw [hres] at hx
                exact collectRows_ok_range hc x (mem_collectSlice hx)
              · intro l hleq hpos
                subst hleq
                rw [hres]
                exact collectSlice_length L asc l offset
                  (Nat.pos_iff_ne_zero.mp hpos)
              · intro col hcol
                have hcol0 : col = col0 := (((Except.ok.injEq _ _).mp hcol)).symm
                subst hcol0
                refine ⟨fun hskip => absurd hskip (by simp), ?_⟩
                intro _ L2 hc2
                have hL2 : L = L2 := by
                  rw [hc] at hc2
                  exact ((Except.ok.injEq _ _).mp hc2)
                subst hL2
                refine ⟨hres, ?_⟩
                intro o hoeq hbeyond
                subst hoeq
                rw [hres]
                exact collectSlice_offset_beyond L asc limit o hbeyond

/-- Claim C1 (counterexample): over three buffered rows at timestamps
1, 2, 3, a query with `limit = 0` returns all three rows instead of the
empty list (`if limit:` treats 0 as "no final truncation"), and a query
with `limit = 2, offset = 1` returns only `[(some [2], 2)]` although the
sub-list of the full ordered result (second conjunct) starting at index 1
and limited to 2 is `[(some [2], 2), (some [3], 3)]` — the buffer lookup
and per-source reads already truncated to 2 rows before the offset was
applied. -/
theorem claim_C1_counterexample :
    Engine.query stateThreeBuffers "a" 0 10 true (some 0) none false
      = .ok [(some [1], 1), (some [2], 2), (some [3], 3)] ∧
    Engine.query stateThreeBuffers "a" 0 10 true none none false
      = .ok [(some [1], 1), (some [2], 2), (some [3], 3)] ∧
    Engine.query stateThreeBuffers "a" 0 10 true (some 2) (some 1) false
      = .ok [(some [2], 2)] :=
  ⟨rfl, rfl, rfl⟩

/-- Claim C1 (witness): the amended theorem applied to a concrete ascending
query with limit 2 over the three buffered rows: the returned timestamp 2
lies in the requested range and the result respects the positive limit. -/
theorem claim_C1_witness :
    ((0 : Int) ≤ (2 : Int) ∧ (2 : Int) ≤ 10) ∧
    ([(some [1], 1), (some [2], 2)] : List (Option (List Nat) × Int)).length ≤ 2 :=
  ⟨(claim_C1_query stateThreeBuffers "a" 0 10 true (some 2) none false
      [(some [1], 1), (some [2], 2)] rfl).2.2.1 (some [2], 2) (by decide),
   (claim_C1_query stateThreeBuffers "a" 0 10 true (some 2) none false
      [(some [1], 1), (some [2], 2)] rfl).2.2.2.1 2 rfl (by decide)⟩
